import Mathlib

/-!
# Bepass command-line entry point and logger

A shallow embedding of `cmd/cli/main.go` (`main`, `loadConfig`, `handleShutdown`) and of
`logger/logger.go` (`SetVerbose`, `GetVerbose`, `InitLogger`, `callerHook.Run`, the leveled
emit functions), together with the parts of the Go standard library and of zerolog that
these functions call and that decide their observable behaviour.

Conventions.
* Go strings that carry messages are Lean `String`s; file contents are lists of bytes
  (`Nat`, each below 256).
* Package-level variables (`config.G`, `logger.log`, `logger.verbose`, zerolog's global
  level) are fields of explicit state records that every function receives and returns.
* A Go `error` is a value of `GoError`; `nil` is `Option.none`.
-/

set_option autoImplicit false

namespace Bepass

/-! ## Go errors -/

/-- The dynamic values of Go's `error` interface that occur in this program. -/
inductive GoError where
  /-- The type `*errors.errorString`: what `errors.New` and a `fmt.Errorf` without `%w` build. -/
  | errorString (s : String)
  /-- The type `*json.SyntaxError` with its message and byte offset. -/
  | jsonSyntaxError (msg : String) (offset : Nat)
  /-- The type `*fs.PathError`, what `os.Open` returns: operation, path, cause. -/
  | pathError (op : String) (path : String) (cause : String)
  /-- Any other error type, given by its type name and its message. -/
  | other (typeName : String) (msg : String)
  deriving DecidableEq, Repr

/-- The method `Error()` of each error value. -/
def GoError.Error : GoError → String
  | .errorString s => s
  | .jsonSyntaxError msg _ => msg
  | .pathError op path cause => op ++ " " ++ path ++ ": " ++ cause
  | .other _ msg => msg

/-- The sentinel `io.EOF = errors.New("EOF")`. -/
def ioEOF : GoError := .errorString "EOF"

/-- The sentinel `io.ErrUnexpectedEOF = errors.New("unexpected EOF")`. -/
def ioErrUnexpectedEOF : GoError := .errorString "unexpected EOF"

/-- The call `fmt.Errorf(s)` for a format string `s` without verbs: a new `errorString`. -/
def fmtErrorf (s : String) : GoError := .errorString s

/-- The call `fmt.Sprint(err)` for an error value: its `Error()` text. -/
def fmtSprint (err : GoError) : String := err.Error

deriving instance DecidableEq for Except

/-! ## `strings` -/

/-- The test `strings.HasPrefix` on character lists. -/
def hasPrefixL : List Char → List Char → Bool
  | _, [] => true
  | [], _ :: _ => false
  | c :: s, d :: p => decide (c = d) && hasPrefixL s p

/-- The test `strings.Contains` on character lists: `sub` occurs at some position of `s`. -/
def containsL : List Char → List Char → Bool
  | [], sub => hasPrefixL [] sub
  | c :: s, sub => hasPrefixL (c :: s) sub || containsL s sub

/-- The function `strings.Contains(s, substr)`. -/
def stringsContains (s substr : String) : Bool := containsL s.data substr.data

/-! ## `loadConfig` -/

/-- What `loadConfig` does to the outside world, in program order. -/
inductive LoadEvent where
  /-- The call `os.Open(configPath)`. -/
  | osOpen (path : String)
  /-- The call `decoder.Decode(&config.G)`. -/
  | decode
  /-- The deferred `file.Close()`. -/
  | fileClose
  deriving DecidableEq, Repr

/-- The collaborators of `loadConfig`: the file system behind `os.Open` (the content of the
file that opens, or the open error) and the JSON decoder applied to `config.G`
(`json.NewDecoder(file).Decode(&config.G)`: the new value of `config.G` and the error). The
type `Cfg` of `config.G` is declared in package `config`. -/
structure LoadEnv (Cfg : Type) where
  osOpen : String → Except GoError (List Nat)
  decode : List Nat → Cfg → Cfg × Option GoError

/-- The state `loadConfig` acts on: the package variable `config.G` and the log of
external calls made so far. -/
structure ConfigState (Cfg : Type) where
  G : Cfg
  calls : List LoadEvent

/-- The clean message `loadConfig` substitutes for a raw parser diagnostic. -/
def notValidJSON : String := "configuration file is not valid JSON"

/-- The function `loadConfig(configPath string) error` of `cmd/cli/main.go`. -/
def loadConfig {Cfg : Type} (env : LoadEnv Cfg) (configPath : String)
    (st : ConfigState Cfg) : ConfigState Cfg × Option GoError :=
  match env.osOpen configPath with
  | .error err => ({ st with calls := st.calls ++ [.osOpen configPath] }, some err)
  | .ok file =>
    let r := env.decode file st.G
    let st' : ConfigState Cfg :=
      { G := r.1, calls := st.calls ++ [.osOpen configPath, .decode, .fileClose] }
    match r.2 with
    | some err =>
      if stringsContains err.Error "invalid character" then
        (st', some (fmtErrorf notValidJSON))
      else
        (st', some err)
    | none => (st', none)

/-! ## `encoding/json`: the scanner (`scanner.go`)

The decoder `loadConfig` builds with `json.NewDecoder(file)` first reads one complete JSON
value with this scanner (`Decoder.readValue`) and then unmarshals it. The scanner is a state
machine that consumes one byte at a time; its state functions are embedded one by one. -/

/-- The opcodes a scanner step returns (`scanContinue` ... `scanError`). -/
inductive ScanOp where
  | scanContinue
  | scanBeginLiteral
  | scanBeginObject
  | scanObjectKey
  | scanObjectValue
  | scanEndObject
  | scanBeginArray
  | scanArrayValue
  | scanEndArray
  | scanSkipSpace
  | scanEnd
  | scanError
  deriving DecidableEq, Repr

/-- The entries of the scanner's parse stack. -/
inductive ParseState where
  | parseObjectKey
  | parseObjectValue
  | parseArrayValue
  deriving DecidableEq, Repr

/-- The state functions a scanner's `step` field can hold. -/
inductive StepFn where
  | stateBeginValueOrEmpty
  | stateBeginValue
  | stateBeginStringOrEmpty
  | stateBeginString
  | stateEndValue
  | stateEndTop
  | stateInString
  | stateInStringEsc
  | stateInStringEscU
  | stateInStringEscU1
  | stateInStringEscU12
  | stateInStringEscU123
  | stateNeg
  | state1
  | state0
  | stateDot
  | stateDot0
  | stateE
  | stateESign
  | stateE0
  | stateT
  | stateTr
  | stateTru
  | stateF
  | stateFa
  | stateFal
  | stateFals
  | stateN
  | stateNu
  | stateNul
  | stateError
  deriving DecidableEq, Repr

/-- The struct `scanner`. The parse stack is kept with its top (Go: last) entry first. -/
structure Scanner where
  step : StepFn
  endTop : Bool
  parseState : List ParseState
  err : Option GoError
  bytes : Nat
  deriving DecidableEq, Repr

/-- The constant `maxNestingDepth`. -/
def maxNestingDepth : Nat := 10000

/-- The digit `lowerhex[n]` of `strconv`. -/
def lowerhex (n : Nat) : Char :=
  if n < 10 then Char.ofNat (48 + n) else Char.ofNat (87 + n)

/-- The predicate `strconv.IsPrint` on the Latin-1 range, the only one a byte reaches. -/
def isPrintLatin1 (r : Nat) : Bool :=
  (0x20 ≤ r && r ≤ 0x7E) || (0xA1 ≤ r && r ≤ 0xFF && r != 0xAD)

/-- The text `strconv.Quote(string(c))` without its two outer quotation marks, for a byte
`c` converted to the one-rune string `string(c)` (`appendEscapedRune` with quote `"`). -/
def quoteBody (c : Nat) : String :=
  if c = 34 ∨ c = 92 then String.mk [Char.ofNat 92, Char.ofNat c]
  else if isPrintLatin1 c then String.mk [Char.ofNat c]
  else if c = 7 then "\\a"
  else if c = 8 then "\\b"
  else if c = 12 then "\\f"
  else if c = 10 then "\\n"
  else if c = 13 then "\\r"
  else if c = 9 then "\\t"
  else if c = 11 then "\\v"
  else if c < 32 ∨ c = 0x7f then
    String.mk [Char.ofNat 92, Char.ofNat 120, lowerhex (c / 16), lowerhex (c % 16)]
  else
    String.mk [Char.ofNat 92, Char.ofNat 117, lowerhex (c / 4096 % 16),
      lowerhex (c / 256 % 16), lowerhex (c / 16 % 16), lowerhex (c % 16)]

/-- The function `quoteChar`: a byte in single quotes, as it is shown in a syntax error. -/
def quoteChar (c : Nat) : String :=
  if c = 39 then String.mk [Char.ofNat 39, Char.ofNat 92, Char.ofNat 39, Char.ofNat 39]
  else if c = 34 then String.mk [Char.ofNat 39, Char.ofNat 34, Char.ofNat 39]
  else String.mk [Char.ofNat 39] ++ quoteBody c ++ String.mk [Char.ofNat 39]

/-- The method `scanner.error`: record a syntax error and stop scanning. -/
def Scanner.error (s : Scanner) (c : Nat) (context : String) : Scanner × ScanOp :=
  ({ s with
      step := .stateError,
      err := some (.jsonSyntaxError ("invalid character " ++ quoteChar c ++ " " ++ context)
        s.bytes) },
   .scanError)

/-- The method `scanner.reset`. -/
def Scanner.reset (s : Scanner) : Scanner :=
  { s with step := .stateBeginValue, parseState := [], err := none, endTop := false }

/-- The zero value of `scanner`, as found in a new `Decoder`. Its `step` is a nil function
there; `stateError` stands for it until `reset` installs `stateBeginValue`. -/
def Scanner.zero : Scanner :=
  { step := .stateError, endTop := false, parseState := [], err := none, bytes := 0 }

/-- The method `scanner.pushParseState`. -/
def Scanner.pushParseState (s : Scanner) (c : Nat) (newParseState : ParseState)
    (successState : ScanOp) : Scanner × ScanOp :=
  let s1 := { s with parseState := newParseState :: s.parseState }
  if s1.parseState.length ≤ maxNestingDepth then (s1, successState)
  else s1.error c "exceeded max depth"

/-- The method `scanner.popParseState`. -/
def Scanner.popParseState (s : Scanner) : Scanner :=
  let ps := s.parseState.tail
  if ps.length = 0 then { s with parseState := ps, step := .stateEndTop, endTop := true }
  else { s with parseState := ps, step := .stateEndValue }

/-- The function `isSpace`: space, tab, carriage return, line feed. -/
def isSpace (c : Nat) : Bool :=
  c ≤ 32 && (c == 32 || c == 9 || c == 13 || c == 10)

/-- The test `'0' <= c && c <= '9'`. -/
def isDigit (c : Nat) : Bool := 48 ≤ c && c ≤ 57

/-- The test `'1' <= c && c <= '9'`. -/
def isDigit19 (c : Nat) : Bool := 49 ≤ c && c ≤ 57

/-- The test for a hexadecimal digit used by the `\u` escape states. -/
def isHex (c : Nat) : Bool :=
  (48 ≤ c && c ≤ 57) || (97 ≤ c && c ≤ 102) || (65 ≤ c && c ≤ 70)

/-- The state `stateEndTop`: after the top-level value; only space is acceptable. -/
def stateEndTop (s : Scanner) (c : Nat) : Scanner × ScanOp :=
  if !isSpace c then ((s.error c "after top-level value").1, .scanEnd)
  else (s, .scanEnd)

/-- The state `stateEndValue`: after a value inside (or at the end of) a composite. -/
def stateEndValue (s : Scanner) (c : Nat) : Scanner × ScanOp :=
  match s.parseState with
  | [] => stateEndTop { s with step := .stateEndTop, endTop := true } c
  | ps :: rest =>
    if isSpace c then ({ s with step := .stateEndValue }, .scanSkipSpace)
    else match ps with
      | .parseObjectKey =>
        if c = 58 then -- ':'
          ({ s with parseState := .parseObjectValue :: rest, step := .stateBeginValue },
            .scanObjectKey)
        else s.error c "after object key"
      | .parseObjectValue =>
        if c = 44 then -- ','
          ({ s with parseState := .parseObjectKey :: rest, step := .stateBeginString },
            .scanObjectValue)
        else if c = 125 then -- '}'
          (s.popParseState, .scanEndObject)
        else s.error c "after object key:value pair"
      | .parseArrayValue =>
        if c = 44 then -- ','
          ({ s with step := .stateBeginValue }, .scanArrayValue)
        else if c = 93 then -- ']'
          (s.popParseState, .scanEndArray)
        else s.error c "after array element"

/-- The state `stateBeginValue`: at the beginning of a value. -/
def stateBeginValue (s : Scanner) (c : Nat) : Scanner × ScanOp :=
  if isSpace c then (s, .scanSkipSpace)
  else if c = 123 then -- '{'
    ({ s with step := .stateBeginStringOrEmpty }).pushParseState c .parseObjectKey
      .scanBeginObject
  else if c = 91 then -- '['
    ({ s with step := .stateBeginValueOrEmpty }).pushParseState c .parseArrayValue
      .scanBeginArray
  else if c = 34 then ({ s with step := .stateInString }, .scanBeginLiteral) -- '"'
  else if c = 45 then ({ s with step := .stateNeg }, .scanBeginLiteral) -- '-'
  else if c = 48 then ({ s with step := .state0 }, .scanBeginLiteral) -- '0'
  else if c = 116 then ({ s with step := .stateT }, .scanBeginLiteral) -- 't'
  else if c = 102 then ({ s with step := .stateF }, .scanBeginLiteral) -- 'f'
  else if c = 110 then ({ s with step := .stateN }, .scanBeginLiteral) -- 'n'
  else if isDigit19 c then ({ s with step := .state1 }, .scanBeginLiteral)
  else s.error c "looking for beginning of value"

/-- The state `stateBeginValueOrEmpty`: after `[`. -/
def stateBeginValueOrEmpty (s : Scanner) (c : Nat) : Scanner × ScanOp :=
  if isSpace c then (s, .scanSkipSpace)
  else if c = 93 then stateEndValue s c -- ']'
  else stateBeginValue s c

/-- The state `stateBeginString`: after `{"key": value,`. -/
def stateBeginString (s : Scanner) (c : Nat) : Scanner × ScanOp :=
  if isSpace c then (s, .scanSkipSpace)
  else if c = 34 then ({ s with step := .stateInString }, .scanBeginLiteral) -- '"'
  else s.error c "looking for beginning of object key string"

/-- The state `stateBeginStringOrEmpty`: after `{`. -/
def stateBeginStringOrEmpty (s : Scanner) (c : Nat) : Scanner × ScanOp :=
  if isSpace c then (s, .scanSkipSpace)
  else if c = 125 then -- '}'
    stateEndValue { s with parseState := .parseObjectValue :: s.parseState.tail } c
  else stateBeginString s c

/-- The state `stateInString`: inside a string literal. -/
def stateInString (s : Scanner) (c : Nat) : Scanner × ScanOp :=
  if c = 34 then ({ s with step := .stateEndValue }, .scanContinue) -- '"'
  else if c = 92 then ({ s with step := .stateInStringEsc }, .scanContinue) -- backslash
  else if c < 32 then s.error c "in string literal"
  else (s, .scanContinue)

/-- The state `stateInStringEsc`: after a backslash in a string. -/
def stateInStringEsc (s : Scanner) (c : Nat) : Scanner × ScanOp :=
  if c = 98 ∨ c = 102 ∨ c = 110 ∨ c = 114 ∨ c = 116 ∨ c = 92 ∨ c = 47 ∨ c = 34 then
    ({ s with step := .stateInString }, .scanContinue)
  else if c = 117 then ({ s with step := .stateInStringEscU }, .scanContinue) -- 'u'
  else s.error c "in string escape code"

/-- The states `stateInStringEscU`, `...U1`, `...U12`, `...U123`: the four hexadecimal
digits of a `\u` escape; `next` is the state that follows a digit. -/
def stateInStringEscUx (next : StepFn) (s : Scanner) (c : Nat) : Scanner × ScanOp :=
  if isHex c then ({ s with step := next }, .scanContinue)
  else s.error c "in \\u hexadecimal character escape"

/-- The state `state0`: after a leading `0` (or the integer part) of a number. -/
def state0 (s : Scanner) (c : Nat) : Scanner × ScanOp :=
  if c = 46 then ({ s with step := .stateDot }, .scanContinue) -- '.'
  else if c = 101 ∨ c = 69 then ({ s with step := .stateE }, .scanContinue) -- 'e', 'E'
  else stateEndValue s c

/-- The state `state1`: inside the integer part of a number. -/
def state1 (s : Scanner) (c : Nat) : Scanner × ScanOp :=
  if isDigit c then ({ s with step := .state1 }, .scanContinue)
  else state0 s c

/-- The state `stateNeg`: after a minus sign. -/
def stateNeg (s : Scanner) (c : Nat) : Scanner × ScanOp :=
  if c = 48 then ({ s with step := .state0 }, .scanContinue)
  else if isDigit19 c then ({ s with step := .state1 }, .scanContinue)
  else s.error c "in numeric literal"

/-- The state `stateDot`: after the decimal point. -/
def stateDot (s : Scanner) (c : Nat) : Scanner × ScanOp :=
  if isDigit c then ({ s with step := .stateDot0 }, .scanContinue)
  else s.error c "after decimal point in numeric literal"

/-- The state `stateDot0`: inside the fraction. -/
def stateDot0 (s : Scanner) (c : Nat) : Scanner × ScanOp :=
  if isDigit c then (s, .scanContinue)
  else if c = 101 ∨ c = 69 then ({ s with step := .stateE }, .scanContinue)
  else stateEndValue s c

/-- The state `stateESign`: after the exponent marker and its optional sign. -/
def stateESign (s : Scanner) (c : Nat) : Scanner × ScanOp :=
  if isDigit c then ({ s with step := .stateE0 }, .scanContinue)
  else s.error c "in exponent of numeric literal"

/-- The state `stateE`: after the exponent marker. -/
def stateE (s : Scanner) (c : Nat) : Scanner × ScanOp :=
  if c = 43 ∨ c = 45 then ({ s with step := .stateESign }, .scanContinue) -- '+', '-'
  else stateESign s c

/-- The state `stateE0`: inside the exponent digits. -/
def stateE0 (s : Scanner) (c : Nat) : Scanner × ScanOp :=
  if isDigit c then (s, .scanContinue)
  else stateEndValue s c

/-- The states inside the literals `true`, `false`, `null` that expect the byte `want`
and then move to the state function `next` (`stateT`, `stateTr`, `stateF`, ...). -/
def stateLit (want : Nat) (next : StepFn) (context : String) (s : Scanner) (c : Nat) :
    Scanner × ScanOp :=
  if c = want then ({ s with step := next }, .scanContinue)
  else s.error c context

/-- The call `s.step(s, c)`: run the state function the scanner currently holds. -/
def Scanner.stepCall (s : Scanner) (c : Nat) : Scanner × ScanOp :=
  match s.step with
  | .stateBeginValueOrEmpty => stateBeginValueOrEmpty s c
  | .stateBeginValue => stateBeginValue s c
  | .stateBeginStringOrEmpty => stateBeginStringOrEmpty s c
  | .stateBeginString => stateBeginString s c
  | .stateEndValue => stateEndValue s c
  | .stateEndTop => stateEndTop s c
  | .stateInString => stateInString s c
  | .stateInStringEsc => stateInStringEsc s c
  | .stateInStringEscU => stateInStringEscUx .stateInStringEscU1 s c
  | .stateInStringEscU1 => stateInStringEscUx .stateInStringEscU12 s c
  | .stateInStringEscU12 => stateInStringEscUx .stateInStringEscU123 s c
  | .stateInStringEscU123 => stateInStringEscUx .stateInString s c
  | .stateNeg => stateNeg s c
  | .state1 => state1 s c
  | .state0 => state0 s c
  | .stateDot => stateDot s c
  | .stateDot0 => stateDot0 s c
  | .stateE => stateE s c
  | .stateESign => stateESign s c
  | .stateE0 => stateE0 s c
  | .stateT => stateLit 114 .stateTr "in literal true (expecting 'r')" s c
  | .stateTr => stateLit 117 .stateTru "in literal true (expecting 'u')" s c
  | .stateTru => stateLit 101 .stateEndValue "in literal true (expecting 'e')" s c
  | .stateF => stateLit 97 .stateFa "in literal false (expecting 'a')" s c
  | .stateFa => stateLit 108 .stateFal "in literal false (expecting 'l')" s c
  | .stateFal => stateLit 115 .stateFals "in literal false (expecting 's')" s c
  | .stateFals => stateLit 101 .stateEndValue "in literal false (expecting 'e')" s c
  | .stateN => stateLit 117 .stateNu "in literal null (expecting 'u')" s c
  | .stateNu => stateLit 108 .stateNul "in literal null (expecting 'l')" s c
  | .stateNul => stateLit 108 .stateEndValue "in literal null (expecting 'l')" s c
  | .stateError => (s, .scanError)

/-! ## `encoding/json`: `Decoder.readValue` and `Decoder.Decode` (`stream.go`) -/

/-- The function `nonSpace`: some byte of the buffer is not JSON white space. -/
def nonSpace (b : List Nat) : Bool := b.any (fun c => !isSpace c)

/-- The scanning loop of `Decoder.readValue`. `buf` is everything read from the file, `rest`
the bytes not yet scanned, `scanp` the number of bytes scanned. When `rest` is exhausted the
reader has reported `io.EOF`. The result is the length of the value or the error. -/
def readValueLoop (buf : List Nat) : Scanner → List Nat → Nat → Except GoError Nat
  | s, [], scanp =>
    if (s.stepCall 32).2 = .scanEnd then .ok scanp
    else if nonSpace buf then .error ioErrUnexpectedEOF
    else .error ioEOF
  | s, c :: rest, scanp =>
    let r := ({ s with bytes := s.bytes + 1 }).stepCall c
    match r.2 with
    | .scanEnd => .ok scanp
    | .scanEndObject | .scanEndArray =>
      let r2 := stateEndValue r.1 32
      if r2.2 = .scanEnd then .ok (scanp + 1)
      else readValueLoop buf r2.1 rest (scanp + 1)
    | .scanError =>
      match r.1.err with
      | some e => .error e
      | none => .error (.other "nil" "")
    | _ => readValueLoop buf r.1 rest (scanp + 1)

/-- The method `Decoder.readValue` of a new decoder over a file with content `content`:
the number of leading bytes that form one complete JSON value, or the error. -/
def readValue (content : List Nat) : Except GoError Nat :=
  readValueLoop content Scanner.zero.reset content 0

/-- The method `Decoder.Decode(&config.G)` of a new decoder: read one value, then unmarshal
its bytes into `config.G`. The unmarshalling step `d.unmarshal` depends on the type of
`config.G`, declared in package `config`, and is a parameter. -/
def jsonDecode {Cfg : Type} (unmarshal : List Nat → Cfg → Cfg × Option GoError)
    (content : List Nat) (g : Cfg) : Cfg × Option GoError :=
  match readValue content with
  | .error e => (g, some e)
  | .ok n => unmarshal (content.take n) g

/-- The bytes of an ASCII text. -/
def asciiBytes (s : String) : List Nat := s.data.map Char.toNat

/-! ## zerolog: levels, loggers and events

The package `logger` wraps one `zerolog.Logger`. What an emit call writes is decided by
zerolog's `Logger.should`, `Logger.newEvent` and `Event.msg`, embedded here. -/

/-- The type `zerolog.Level` (an `int8`). -/
abbrev Level := Int

/-- The constant `zerolog.DebugLevel`. -/
def DebugLevel : Level := 0
/-- The constant `zerolog.InfoLevel`. -/
def InfoLevel : Level := 1
/-- The constant `zerolog.WarnLevel`. -/
def WarnLevel : Level := 2
/-- The constant `zerolog.ErrorLevel`. -/
def ErrorLevel : Level := 3
/-- The constant `zerolog.FatalLevel`. -/
def FatalLevel : Level := 4
/-- The constant `zerolog.PanicLevel`. -/
def PanicLevel : Level := 5
/-- The constant `zerolog.NoLevel`. -/
def NoLevel : Level := 6
/-- The constant `zerolog.Disabled`. -/
def Disabled : Level := 7
/-- The constant `zerolog.TraceLevel`. -/
def TraceLevel : Level := -1

/-- The writer of a logger: `zerolog.ConsoleWriter{Out: os.Stdout, TimeFormat: ...}` is the
only one this program builds. -/
structure ConsoleWriter where
  timeFormat : String
  deriving DecidableEq, Repr

/-- The hooks a logger can carry; `callerHook` is the only one of package `logger`. -/
inductive Hook where
  | callerHook
  deriving DecidableEq, Repr

/-- The struct `zerolog.Logger`: its writer (`none` is the nil writer of the zero value),
its own minimum level, whether its context adds a timestamp, and its hooks. -/
structure ZLogger where
  w : Option ConsoleWriter
  level : Level
  timestamp : Bool
  hooks : List Hook
  deriving DecidableEq, Repr

/-- The zero value of `zerolog.Logger`, the value of `var log zerolog.Logger` before
`InitLogger` runs. -/
def ZLogger.zero : ZLogger := { w := none, level := 0, timestamp := false, hooks := [] }

/-- The call `zerolog.New(output).With().Timestamp().Logger()`: `New` gives the logger the
writer and the level `TraceLevel`; the context adds the timestamp. -/
def zerologNew (output : ConsoleWriter) : ZLogger :=
  { w := some output, level := TraceLevel, timestamp := true, hooks := [] }

/-- The method `Logger.Hook(h)`: a copy of the logger with one more hook. -/
def ZLogger.Hook (l : ZLogger) (h : Hook) : ZLogger := { l with hooks := l.hooks ++ [h] }

/-- One line the console writer prints on standard output: the level, the message and the
fields of the event (the timestamp is not recorded). -/
structure LogLine where
  level : Level
  message : String
  fields : List (String × String)
  deriving DecidableEq, Repr

/-- The struct `zerolog.Event` while it is being built: its level and its fields. -/
structure Event where
  level : Level
  fields : List (String × String)
  deriving DecidableEq, Repr

/-- The method `Event.Str(key, val)`: append one string field. -/
def Event.Str (e : Event) (key val : String) : Event :=
  { e with fields := e.fields ++ [(key, val)] }

/-- How a call leaves the flow of control: it returns, it ends the process with
`os.Exit(code)`, or it panics. -/
inductive Control where
  | returns
  | exit (code : Nat)
  | panics (msg : String)
  deriving DecidableEq, Repr

/-- The method `Logger.should(lvl)` under the global level `gLevel`; no sampler is set. -/
def ZLogger.should (l : ZLogger) (gLevel : Level) (lvl : Level) : Bool :=
  if l.w.isNone then false
  else if lvl < l.level ∨ lvl < gLevel then false
  else true

/-! ## `path.Base`, `string(rune(n))` and `callerHook` -/

/-- The function `path.Base`. -/
def pathBase (path : String) : String :=
  if path.data = [] then "."
  else
    -- Strip trailing slashes.
    let p := (path.data.reverse.dropWhile (fun c => c = Char.ofNat 47)).reverse
    -- Find the last element.
    let q := (p.reverse.takeWhile (fun c => c ≠ Char.ofNat 47)).reverse
    -- If empty now, it had only slashes.
    if q = [] then "/" else String.mk q

/-- The conversion `rune(line)` of an `int` to `int32`: the low 32 bits, read as signed. -/
def runeOfInt (line : Int) : Int :=
  let m := line % 4294967296
  if m < 2147483648 then m else m - 4294967296

/-- The conversion `string(r)` of a rune: the text made of that one code point, and of
U+FFFD when `r` is not a valid code point. -/
def stringOfRune (r : Int) : String :=
  if 0 ≤ r ∧ r.toNat.isValidChar then String.singleton (Char.ofNat r.toNat)
  else String.singleton (Char.ofNat 0xFFFD)

/-- The method `callerHook.Run(e, level, msg)`. The result `(file, line)` of
`runtime.Caller(3)` is `caller`, `none` when the call reports `ok = false`. -/
def callerHook.Run (caller : Option (String × Int)) (e : Event) (_level : Level)
    (_msg : String) : Event :=
  match caller with
  | some (file, line) =>
    e.Str "source" (pathBase file ++ ":" ++ stringOfRune (runeOfInt line))
  | none => e

/-- Run one hook on an event. -/
def Hook.Run (caller : Option (String × Int)) : Hook → Event → Level → String → Event
  | .callerHook, e, level, msg => callerHook.Run caller e level msg

/-- The method `Event.msg(msg)` up to the write: run the hooks in order, then the line that
is written carries the message and the fields. -/
def Event.msgLine (caller : Option (String × Int)) (hooks : List Hook) (e : Event)
    (msg : String) : LogLine :=
  let e' := hooks.foldl (fun ev h => h.Run caller ev e.level msg) e
  { level := e'.level, message := msg, fields := e'.fields }

/-! ## Package `logger` -/

/-- The state of package `logger` and what it writes to: the package variables `log` and
`verbose`, zerolog's global level (`SetGlobalLevel` / `GlobalLevel`), and the lines written to
standard output so far. -/
structure LoggerState where
  log : ZLogger
  verbose : Bool
  gLevel : Level
  stdout : List LogLine
  deriving DecidableEq, Repr

/-- The state at program start: `log` and `verbose` are zero values; zerolog's global level
is `TraceLevel`, which zerolog's own `init()` sets with `SetGlobalLevel(TraceLevel)`. -/
def LoggerState.initial : LoggerState :=
  { log := ZLogger.zero, verbose := false, gLevel := TraceLevel, stdout := [] }

/-- The function `zerolog.SetGlobalLevel`. -/
def SetGlobalLevel (l : Level) (st : LoggerState) : LoggerState := { st with gLevel := l }

/-- The function `SetVerbose(v bool)` of `logger/logger.go`. -/
def SetVerbose (v : Bool) (st : LoggerState) : LoggerState :=
  let st1 := { st with verbose := v }
  let st2 := SetGlobalLevel DebugLevel st1
  if !st2.verbose then SetGlobalLevel Disabled st2 else st2

/-- The function `GetVerbose() bool`. -/
def GetVerbose (st : LoggerState) : Bool := st.verbose

/-- The function `InitLogger()`. -/
def InitLogger (st : LoggerState) : LoggerState :=
  let output : ConsoleWriter := { timeFormat := "2006-01-02 15:04:05" }
  { st with log := zerologNew output }

/-- The function `WithCaller() zerolog.Logger`. -/
def WithCaller (st : LoggerState) : ZLogger := st.log.Hook .callerHook

/-- The chain `l.<Level>().Msg(msg)` on a logger `l`: `newEvent(lvl, done)` followed by
`Event.Msg`. When `should` refuses the level, `newEvent` runs `done` at once and returns a
nil event, on which `Msg` does nothing; otherwise the line is written and `done` runs after
the write. `done` is the control effect of the level: nothing, `os.Exit(1)` or a panic. -/
def emitOn (l : ZLogger) (caller : Option (String × Int)) (lvl : Level)
    (done : String → Control) (msg : String) (st : LoggerState) : LoggerState × Control :=
  if l.should st.gLevel lvl then
    let e : Event := { level := lvl, fields := [] }
    ({ st with stdout := st.stdout ++ [e.msgLine caller l.hooks msg] }, done msg)
  else
    (st, done "")

/-- An emit on the package logger `log`, which carries no hook. -/
def emit (lvl : Level) (done : String → Control) (msg : String) (st : LoggerState) :
    LoggerState × Control :=
  emitOn st.log none lvl done msg st

/-- The function `Info(msg string)`. -/
def Info (msg : String) (st : LoggerState) : LoggerState × Control :=
  emit InfoLevel (fun _ => .returns) msg st

/-- The function `Debug(msg string)`. -/
def Debug (msg : String) (st : LoggerState) : LoggerState × Control :=
  emit DebugLevel (fun _ => .returns) msg st

/-- The function `Error(msg string)`. -/
def Error (msg : String) (st : LoggerState) : LoggerState × Control :=
  emit ErrorLevel (fun _ => .returns) msg st

/-- The function `Warn(msg string)`. -/
def Warn (msg : String) (st : LoggerState) : LoggerState × Control :=
  emit WarnLevel (fun _ => .returns) msg st

/-- The function `Fatal(msg string)`: the `done` of `Logger.Fatal` is `os.Exit(1)`. -/
def Fatal (msg : String) (st : LoggerState) : LoggerState × Control :=
  emit FatalLevel (fun _ => .exit 1) msg st

/-- The function `Panic(msg string)`: the `done` of `Logger.Panic` is `panic(msg)`. -/
def Panic (msg : String) (st : LoggerState) : LoggerState × Control :=
  emit PanicLevel (fun m => .panics m) msg st

section Formatted

variable {Arg : Type} (sprintf : String → List Arg → String)

/-- The function `Infof(format, args...)`: `Msgf` formats with `fmt.Sprintf`, here the
parameter `sprintf`, when the event is enabled. -/
def Infof (format : String) (args : List Arg) (st : LoggerState) : LoggerState × Control :=
  emit InfoLevel (fun _ => .returns) (sprintf format args) st

/-- The function `Debugf(format, args...)`. -/
def Debugf (format : String) (args : List Arg) (st : LoggerState) : LoggerState × Control :=
  emit DebugLevel (fun _ => .returns) (sprintf format args) st

/-- The function `Errorf(format, args...)`. -/
def Errorf (format : String) (args : List Arg) (st : LoggerState) : LoggerState × Control :=
  emit ErrorLevel (fun _ => .returns) (sprintf format args) st

/-- The function `Warnf(format, args...)`. -/
def Warnf (format : String) (args : List Arg) (st : LoggerState) : LoggerState × Control :=
  emit WarnLevel (fun _ => .returns) (sprintf format args) st

/-- The function `Fatalf(format, args...)`. -/
def Fatalf (format : String) (args : List Arg) (st : LoggerState) : LoggerState × Control :=
  emit FatalLevel (fun _ => .exit 1) (sprintf format args) st

/-- The function `Panicf(format, args...)`. -/
def Panicf (format : String) (args : List Arg) (st : LoggerState) : LoggerState × Control :=
  emit PanicLevel (fun m => .panics m) (sprintf format args) st

end Formatted

/-- The calls of package `logger` that return to their caller, as operations on its state. -/
inductive LoggerOp where
  | initLogger
  | setVerbose (v : Bool)
  | info (msg : String)
  | debug (msg : String)
  | warn (msg : String)
  | error (msg : String)
  deriving DecidableEq, Repr

/-- The effect of one call on the state of package `logger`. -/
def LoggerOp.apply : LoggerOp → LoggerState → LoggerState
  | .initLogger, st => InitLogger st
  | .setVerbose v, st => SetVerbose v st
  | .info msg, st => (Info msg st).1
  | .debug msg, st => (Debug msg st).1
  | .warn msg, st => (Warn msg st).1
  | .error msg, st => (Error msg st).1

/-- The effect of a sequence of calls, in order. -/
def runOps (ops : List LoggerOp) (st : LoggerState) : LoggerState :=
  ops.foldl (fun s op => op.apply s) st

/-- The operation is a call of `SetVerbose`. -/
def LoggerOp.isSetVerbose : LoggerOp → Bool
  | .setVerbose _ => true
  | _ => false

/-- The global level admits every level from debug upwards. -/
def admitsDebug (st : LoggerState) : Prop := st.gLevel ≤ DebugLevel

/-- The flag and the global level agree: the flag is set exactly when the global level
admits debug, and is clear exactly when the global level is `Disabled`. -/
def verbosityConsistent (st : LoggerState) : Prop :=
  (GetVerbose st = true ↔ admitsDebug st) ∧ (GetVerbose st = false ↔ st.gLevel = Disabled)

/-! ## `main` -/

/-- The values `flag.Parse()` stores: `-config` (default `./config.json`) and `-verbose`
(default `false`). -/
structure Flags where
  configPath : String
  verbose : Bool
  deriving DecidableEq, Repr

/-- The flag values when the command line gives none. -/
def Flags.default : Flags := { configPath := "./config.json", verbose := false }

/-- The steps of `main` that the rest of the system can observe, in program order. -/
inductive MainEvent where
  | flagParse
  | loadConfig (path : String)
  | loggerFatal (msg : String)
  | withCancel
  | goHandleShutdown
  | serverRun (verbose : Bool)
  | osExit (code : Nat)
  | deferredCancel
  deriving DecidableEq, Repr

/-- What `main` runs against: the parsed flags, the collaborators of `loadConfig`, and the
external `server.Run(verbose)`, which may use package `logger` and returns an error or nil. -/
structure MainEnv (Cfg : Type) where
  flags : Flags
  load : LoadEnv Cfg
  serverRun : Bool → LoggerState → LoggerState × Option GoError

/-- The state of the process as `main` runs: the configuration state, the logger state, the
steps taken, and the exit status once the process has ended. -/
structure Proc (Cfg : Type) where
  config : ConfigState Cfg
  logger : LoggerState
  events : List MainEvent
  exitStatus : Option Nat

/-- The process at the start of `main`, with `config.G` at the value `g`. -/
def Proc.initial {Cfg : Type} (g : Cfg) : Proc Cfg :=
  { config := { G := g, calls := [] }, logger := LoggerState.initial, events := [],
    exitStatus := none }

/-- The statement `logger.Fatal(fmt.Sprint(err))` in `main` followed by `rest`, the
statements after it: `rest` runs only if `Fatal` returns. `deferred` are the steps of the
deferred calls registered so far, which run on a panic but not on `os.Exit`. -/
def fatalThen {Cfg : Type} (err : GoError) (deferred : List MainEvent)
    (rest : Proc Cfg → Proc Cfg) (p : Proc Cfg) : Proc Cfg :=
  let f := Fatal (fmtSprint err) p.logger
  let p1 : Proc Cfg :=
    { p with logger := f.1, events := p.events ++ [.loggerFatal (fmtSprint err)] }
  match f.2 with
  | .exit code => { p1 with events := p1.events ++ [.osExit code], exitStatus := some code }
  | .panics _ => { p1 with events := p1.events ++ deferred, exitStatus := some 2 }
  | .returns => rest p1

/-- The return of `main`: the deferred `cancel()` runs and the process ends with status 0. -/
def mainReturn {Cfg : Type} (p : Proc Cfg) : Proc Cfg :=
  { p with events := p.events ++ [.deferredCancel], exitStatus := some 0 }

/-- The second half of `main`, from `context.WithCancel` on. -/
def mainServe {Cfg : Type} (env : MainEnv Cfg) (p : Proc Cfg) : Proc Cfg :=
  let p1 : Proc Cfg :=
    { p with events := p.events ++
        [.withCancel, .goHandleShutdown, .serverRun env.flags.verbose] }
  let r := env.serverRun env.flags.verbose p1.logger
  let p2 : Proc Cfg := { p1 with logger := r.1 }
  match r.2 with
  | some err => fatalThen err [.deferredCancel] mainReturn p2
  | none => mainReturn p2

/-- The function `main()` of `cmd/cli/main.go`, as run by the main goroutine. -/
def main {Cfg : Type} (env : MainEnv Cfg) (p : Proc Cfg) : Proc Cfg :=
  let p0 : Proc Cfg := { p with events := p.events ++ [.flagParse] }
  let r := loadConfig env.load env.flags.configPath p0.config
  let p1 : Proc Cfg :=
    { p0 with config := r.1, events := p0.events ++ [.loadConfig env.flags.configPath] }
  match r.2 with
  | some err => fatalThen err [] (mainServe env) p1
  | none => mainServe env p1

/-- The number of `server.Run` invocations among the steps. -/
def countServerRun (evs : List MainEvent) : Nat :=
  (evs.filter (fun e => match e with | .serverRun _ => true | _ => false)).length

/-! ## `handleShutdown` -/

/-- The signals the operating system can deliver to the process. -/
inductive Signal where
  | SIGINT
  | SIGTERM
  | other (num : Nat)
  deriving DecidableEq, Repr

/-- The observable actions of `handleShutdown`. -/
inductive ShutdownEvent where
  | println (text : String)
  | cancelFunc
  | osExit (code : Nat)
  deriving DecidableEq, Repr

/-- The program points of `handleShutdown`: the statement about to run, `exited` once
`os.Exit` has ended the process, `returned` if the function had returned to its caller. -/
inductive ShutdownPC where
  | makeChan
  | signalNotify
  | receive
  | println
  | cancelFunc
  | osExit
  | exited
  | returned
  deriving DecidableEq, Repr

/-- The state of the goroutine running `handleShutdown`: its program point, the signals
`signal.Notify` relays, the content of the channel `c` (capacity 1), its actions so far. -/
structure ShutdownState where
  pc : ShutdownPC
  subscribed : List Signal
  chan : List Signal
  events : List ShutdownEvent
  deriving DecidableEq, Repr

/-- The goroutine when `go handleShutdown(cancel)` starts it. -/
def ShutdownState.initial : ShutdownState :=
  { pc := .makeChan, subscribed := [], chan := [], events := [] }

/-- The notice `fmt.Println` writes, with the newline `Println` appends. -/
def shutdownNotice : String := "\nShutting down gracefully...\n"

/-- The delivery of a signal by package `os/signal`: a subscribed signal is put on the
channel unless the channel is full; `signal.Notify` never blocks. -/
def deliver (sig : Option Signal) (st : ShutdownState) : ShutdownState :=
  match sig with
  | some s =>
    if s ∈ st.subscribed ∧ st.chan.length < 1 then { st with chan := st.chan ++ [s] } else st
  | none => st

/-- One statement of `handleShutdown(cancelFunc)`; the receive `<-c` blocks while the
channel is empty. -/
def handleShutdownStep (st : ShutdownState) : ShutdownState :=
  match st.pc with
  | .makeChan => { st with pc := .signalNotify }
  | .signalNotify =>
    { st with subscribed := [Signal.SIGINT, Signal.SIGINT, Signal.SIGTERM], pc := .receive }
  | .receive =>
    match st.chan with
    | [] => st
    | _ :: rest => { st with chan := rest, pc := .println }
  | .println =>
    { st with events := st.events ++ [.println shutdownNotice], pc := .cancelFunc }
  | .cancelFunc => { st with events := st.events ++ [.cancelFunc], pc := .osExit }
  | .osExit => { st with events := st.events ++ [.osExit 0], pc := .exited }
  | .exited => st
  | .returned => st

/-- The goroutine over time: at each tick the environment may deliver a signal, then the
goroutine runs one statement if it can. -/
def handleShutdown : List (Option Signal) → ShutdownState → ShutdownState
  | [], st => st
  | sig :: rest, st => handleShutdown rest (handleShutdownStep (deliver sig st))

/-- The goroutine has received a signal: it is past the receive `<-c`. -/
def ShutdownState.received (st : ShutdownState) : Bool :=
  match st.pc with
  | .makeChan | .signalNotify | .receive => false
  | _ => true

/-- The sequence the function performs after a signal: notice, cancel, exit with status 0. -/
def shutdownSequence : List ShutdownEvent :=
  [.println shutdownNotice, .cancelFunc, .osExit 0]

/-! ## The configuration object -/

/-- Modelled from the spec: the configuration object `config.G`, whose declaration in package
`config` is not among the sources. The spec describes it as a single shared structure with
a field set, created with zero values and populated in place; here it gives each field name
its current value. -/
abbrev ConfigObject (Val : Type) := String → Val

/-- Modelled from the spec: how a successfully decoded document populates the configuration
object. The document is "a single JSON object decoded directly into the shared Configuration
Object's field set": every field present in the document, in document order, is stored in
place; every other field keeps its previous value. -/
def populate {Val : Type} : List (String × Val) → ConfigObject Val → ConfigObject Val
  | [], g => g
  | (k, v) :: rest, g => populate rest (Function.update g k v)

/-! ## Sample environments -/

/-- A file system in which no path opens: `os.Open` reports that the file does not exist. -/
def noFiles : String → Except GoError (List Nat) :=
  fun p => .error (.pathError "open" p "no such file or directory")

/-- A file system with exactly one file. -/
def oneFile (name : String) (content : List Nat) : String → Except GoError (List Nat) :=
  fun p => if p = name then .ok content else noFiles p

/-- The collaborators of `loadConfig` when the decoder is the JSON decoder embedded above,
for any unmarshalling step. -/
def jsonEnv {Cfg : Type} (fs : String → Except GoError (List Nat))
    (unmarshal : List Nat → Cfg → Cfg × Option GoError) : LoadEnv Cfg :=
  { osOpen := fs, decode := jsonDecode unmarshal }

/-- An unmarshalling step that accepts every value and stores nothing. -/
def unmarshalNothing : List Nat → Unit → Unit × Option GoError := fun _ g => (g, none)

/-- A `server.Run` that returns nil at once and leaves the logger alone. -/
def serverReturns : Bool → LoggerState → LoggerState × Option GoError := fun _ l => (l, none)

/-- The environment of a run of `main` with default flags and no configuration file. -/
def envMissingConfig : MainEnv Unit :=
  { flags := Flags.default, load := jsonEnv noFiles unmarshalNothing,
    serverRun := serverReturns }

/-- The environment of a run of `main -verbose` whose `./config.json` holds `content`. -/
def envWithConfig (content : String) : MainEnv Unit :=
  { flags := { configPath := "./config.json", verbose := true },
    load := jsonEnv (oneFile "./config.json" (asciiBytes content)) unmarshalNothing,
    serverRun := serverReturns }

/-- The value a document gives a field: that of the last member with this name, if any. -/
def lastValue {Val : Type} : List (String × Val) → String → Option Val
  | [], _ => none
  | (k, v) :: rest, x =>
    match lastValue rest x with
    | some w => some w
    | none => if x = k then some v else none

/-- A sample document with two fields. -/
def sampleDoc : List (String × String) :=
  [("BindAddress", "0.0.0.0:8085"), ("RemoteDNSAddr", "https://1.1.1.1/dns-query")]

/-- The text of a configuration file that holds the sample document. -/
def sampleFile : String :=
  "\x7b\"BindAddress\": \"0.0.0.0:8085\", \"RemoteDNSAddr\": \"https://1.1.1.1/dns-query\"\x7d\n"

/-- The collaborators of `loadConfig` over a file system whose `./config.json` holds the
sample file and whose unmarshalling step stores the sample document. -/
def sampleEnv : LoadEnv (ConfigObject String) :=
  jsonEnv (oneFile "./config.json" (asciiBytes sampleFile))
    (fun _ g => (populate sampleDoc g, none))

/-- The error, if any, is a syntax error with the message the scanner builds:
`invalid character`, the quoted byte, the context. -/
def IsScanError (e : Option GoError) : Prop :=
  ∃ c context offset,
    e = some (.jsonSyntaxError ("invalid character " ++ quoteChar c ++ " " ++ context) offset)

/-- A scanner whose state function is `stateError` holds the syntax error that put it there. -/
def Scanner.ErrInv (s : Scanner) : Prop := s.step = .stateError → IsScanError s.err

/-- A step result that keeps `ErrInv` and that reports `scanError` only with the error set. -/
def StepGood (r : Scanner × ScanOp) : Prop :=
  r.1.ErrInv ∧ (r.2 = .scanError → IsScanError r.1.err)

/-! ## Program points of `handleShutdown` -/

/-- The number of statements `handleShutdown` has completed at a program point. -/
def ShutdownPC.rank : ShutdownPC → Nat
  | .makeChan => 0
  | .signalNotify => 1
  | .receive => 2
  | .println => 3
  | .cancelFunc => 4
  | .osExit => 5
  | .exited => 6
  | .returned => 7

/-- What holds of the goroutine at each program point it can reach. -/
def ShutdownState.Inv (st : ShutdownState) : Prop :=
  match st.pc with
  | .makeChan => st.events = [] ∧ st.chan = [] ∧ st.subscribed = []
  | .signalNotify => st.events = [] ∧ st.chan = [] ∧ st.subscribed = []
  | .receive =>
    st.events = [] ∧ st.chan = [] ∧
      st.subscribed = [Signal.SIGINT, Signal.SIGINT, Signal.SIGTERM]
  | .println => st.events = []
  | .cancelFunc => st.events = [.println shutdownNotice]
  | .osExit => st.events = [.println shutdownNotice, .cancelFunc]
  | .exited => st.events = shutdownSequence
  | .returned => False

/-- The signal is one `handleShutdown` subscribes to: interrupt or termination. -/
def Signal.isShutdown : Signal → Bool
  | .SIGINT => true
  | .SIGTERM => true
  | .other _ => false

/-- No interrupt or termination signal is delivered at any tick of the schedule. -/
def noShutdownSignal (sigs : List (Option Signal)) : Prop :=
  ∀ s, some s ∈ sigs → s.isShutdown = false

/-- The goroutine has done nothing observable and has nothing to receive: it is at or before
the receive, the channel is empty, and it relays interrupt and termination signals only. -/
def ShutdownState.Quiet (st : ShutdownState) : Prop :=
  st.received = false ∧ st.chan = [] ∧ st.events = [] ∧
    ∀ s ∈ st.subscribed, s.isShutdown = true

/-! # Theorems -/

/-! ## `strings.Contains` -/

theorem hasPrefixL_iff (s p : List Char) : hasPrefixL s p = true ↔ p <+: s := by
  induction s generalizing p with
  | nil => cases p <;> simp [hasPrefixL]
  | cons c s ih =>
    cases p with
    | nil => simp [hasPrefixL]
    | cons d p =>
      simp only [hasPrefixL, Bool.and_eq_true, decide_eq_true_eq, ih, List.cons_prefix_cons]
      constructor
      · rintro ⟨h1, h2⟩; exact ⟨h1.symm, h2⟩
      · rintro ⟨h1, h2⟩; exact ⟨h1.symm, h2⟩

theorem containsL_iff (s sub : List Char) : containsL s sub = true ↔ sub <:+: s := by
  induction s with
  | nil => simp [containsL, hasPrefixL_iff]
  | cons c s ih =>
    simp only [containsL, Bool.or_eq_true, hasPrefixL_iff, ih, List.infix_cons_iff]

theorem stringsContains_trans (a b c : String) (hab : stringsContains a b = true)
    (hbc : stringsContains b c = true) : stringsContains a c = true := by
  unfold stringsContains at *
  rw [containsL_iff] at *
  exact List.IsInfix.trans hbc hab

theorem notValidJSON_hides_raw (raw : String)
    (h : stringsContains raw "invalid character" = true) :
    stringsContains notValidJSON raw = false := by
  by_contra hc
  have hc' : stringsContains notValidJSON raw = true := by
    cases hh : stringsContains notValidJSON raw
    · exact absurd hh hc
    · rfl
  have := stringsContains_trans _ _ _ hc' h
  revert this
  decide

/-! ## The errors of the JSON decoder -/

theorem good_error (s : Scanner) (c : Nat) (context : String) :
    StepGood (s.error c context) :=
  ⟨fun _ => ⟨c, context, s.bytes, rfl⟩, fun _ => ⟨c, context, s.bytes, rfl⟩⟩

theorem good_of_step_ne (r : Scanner × ScanOp) (h1 : r.1.step ≠ .stateError)
    (h2 : r.2 ≠ .scanError) : StepGood r :=
  ⟨fun h => absurd h h1, fun h => absurd h h2⟩

theorem good_same (s : Scanner) (op : ScanOp) (h : s.ErrInv) (h2 : op ≠ .scanError) :
    StepGood (s, op) :=
  ⟨h, fun h' => absurd h' h2⟩

theorem stateEndTop_good (s : Scanner) (c : Nat) (h : s.ErrInv) :
    StepGood (stateEndTop s c) := by
  unfold stateEndTop
  split
  · exact ⟨(good_error s c _).1, fun h' => by simp at h'⟩
  · exact good_same s _ h (by simp)

theorem popParseState_step (s : Scanner) : s.popParseState.step ≠ .stateError := by
  unfold Scanner.popParseState
  dsimp only
  split <;> simp

theorem stateEndValue_good (s : Scanner) (c : Nat) (_h : s.ErrInv) :
    StepGood (stateEndValue s c) := by
  unfold stateEndValue
  split
  · exact stateEndTop_good _ c (fun h' => by simp at h')
  · split
    · exact good_of_step_ne _ (by simp) (by simp)
    · split
      · split
        · exact good_of_step_ne _ (by simp) (by simp)
        · exact good_error _ _ _
      · split
        · exact good_of_step_ne _ (by simp) (by simp)
        · split
          · exact good_of_step_ne _ (popParseState_step s) (by simp)
          · exact good_error _ _ _
      · split
        · exact good_of_step_ne _ (by simp) (by simp)
        · split
          · exact good_of_step_ne _ (popParseState_step s) (by simp)
          · exact good_error _ _ _

theorem pushParseState_good (s : Scanner) (c : Nat) (ps : ParseState) (op : ScanOp)
    (h1 : s.step ≠ .stateError) (h2 : op ≠ .scanError) :
    StepGood (s.pushParseState c ps op) := by
  unfold Scanner.pushParseState
  dsimp only
  split
  · exact good_of_step_ne _ (by simpa using h1) h2
  · exact good_error _ _ _

theorem stateBeginValue_good (s : Scanner) (c : Nat) (h : s.ErrInv) :
    StepGood (stateBeginValue s c) := by
  unfold stateBeginValue
  repeat' split
  all_goals first
    | exact good_same s _ h (by simp)
    | exact pushParseState_good _ _ _ _ (by simp) (by simp)
    | exact good_error _ _ _
    | exact good_of_step_ne _ (by simp) (by simp)

theorem stateBeginString_good (s : Scanner) (c : Nat) (h : s.ErrInv) :
    StepGood (stateBeginString s c) := by
  unfold stateBeginString
  repeat' split
  all_goals first
    | exact good_same s _ h (by simp)
    | exact good_error _ _ _
    | exact good_of_step_ne _ (by simp) (by simp)

theorem state0_good (s : Scanner) (c : Nat) (h : s.ErrInv) : StepGood (state0 s c) := by
  unfold state0
  split
  · exact good_of_step_ne _ (by simp) (by simp)
  · split
    · exact good_of_step_ne _ (by simp) (by simp)
    · exact stateEndValue_good s c h

theorem stateESign_good (s : Scanner) (c : Nat) : StepGood (stateESign s c) := by
  unfold stateESign
  split
  · exact good_of_step_ne _ (by simp) (by simp)
  · exact good_error _ _ _

theorem stateLit_good (want : Nat) (next : StepFn) (context : String) (s : Scanner) (c : Nat)
    (hn : next ≠ .stateError) : StepGood (stateLit want next context s c) := by
  unfold stateLit
  split
  · exact good_of_step_ne _ (by simpa using hn) (by simp)
  · exact good_error _ _ _

theorem stateInStringEscUx_good (next : StepFn) (s : Scanner) (c : Nat)
    (hn : next ≠ .stateError) : StepGood (stateInStringEscUx next s c) := by
  unfold stateInStringEscUx
  split
  · exact good_of_step_ne _ (by simpa using hn) (by simp)
  · exact good_error _ _ _

theorem stateBeginValueOrEmpty_good (s : Scanner) (c : Nat) (h : s.ErrInv) :
    StepGood (stateBeginValueOrEmpty s c) := by
  unfold stateBeginValueOrEmpty
  split
  · exact good_same s _ h (by simp)
  · split
    · exact stateEndValue_good s c h
    · exact stateBeginValue_good s c h

theorem stateBeginStringOrEmpty_good (s : Scanner) (c : Nat) (h : s.ErrInv) :
    StepGood (stateBeginStringOrEmpty s c) := by
  unfold stateBeginStringOrEmpty
  split
  · exact good_same s _ h (by simp)
  · split
    · exact stateEndValue_good _ c (fun h' => h h')
    · exact stateBeginString_good s c h

theorem stateInString_good (s : Scanner) (c : Nat) (h : s.ErrInv) :
    StepGood (stateInString s c) := by
  unfold stateInString
  repeat' split
  all_goals first
    | exact good_same s _ h (by simp)
    | exact good_error _ _ _
    | exact good_of_step_ne _ (by simp) (by simp)

theorem stateInStringEsc_good (s : Scanner) (c : Nat) : StepGood (stateInStringEsc s c) := by
  unfold stateInStringEsc
  repeat' split
  all_goals first
    | exact good_error _ _ _
    | exact good_of_step_ne _ (by simp) (by simp)

theorem stateNeg_good (s : Scanner) (c : Nat) : StepGood (stateNeg s c) := by
  unfold stateNeg
  repeat' split
  all_goals first
    | exact good_error _ _ _
    | exact good_of_step_ne _ (by simp) (by simp)

theorem state1_good (s : Scanner) (c : Nat) (h : s.ErrInv) : StepGood (state1 s c) := by
  unfold state1
  split
  · exact good_of_step_ne _ (by simp) (by simp)
  · exact state0_good s c h

theorem stateDot_good (s : Scanner) (c : Nat) : StepGood (stateDot s c) := by
  unfold stateDot
  split
  · exact good_of_step_ne _ (by simp) (by simp)
  · exact good_error _ _ _

theorem stateDot0_good (s : Scanner) (c : Nat) (h : s.ErrInv) : StepGood (stateDot0 s c) := by
  unfold stateDot0
  split
  · exact good_same s _ h (by simp)
  · split
    · exact good_of_step_ne _ (by simp) (by simp)
    · exact stateEndValue_good s c h

theorem stateE_good (s : Scanner) (c : Nat) : StepGood (stateE s c) := by
  unfold stateE
  split
  · exact good_of_step_ne _ (by simp) (by simp)
  · exact stateESign_good s c

theorem stateE0_good (s : Scanner) (c : Nat) (h : s.ErrInv) : StepGood (stateE0 s c) := by
  unfold stateE0
  split
  · exact good_same s _ h (by simp)
  · exact stateEndValue_good s c h

theorem stepCall_good (s : Scanner) (c : Nat) (h : s.ErrInv) : StepGood (s.stepCall c) := by
  unfold Scanner.stepCall
  split
  · exact stateBeginValueOrEmpty_good s c h
  · exact stateBeginValue_good s c h
  · exact stateBeginStringOrEmpty_good s c h
  · exact stateBeginString_good s c h
  · exact stateEndValue_good s c h
  · exact stateEndTop_good s c h
  · exact stateInString_good s c h
  · exact stateInStringEsc_good s c
  · exact stateInStringEscUx_good _ s c (by simp)
  · exact stateInStringEscUx_good _ s c (by simp)
  · exact stateInStringEscUx_good _ s c (by simp)
  · exact stateInStringEscUx_good _ s c (by simp)
  · exact stateNeg_good s c
  · exact state1_good s c h
  · exact state0_good s c h
  · exact stateDot_good s c
  · exact stateDot0_good s c h
  · exact stateE_good s c
  · exact stateESign_good s c
  · exact stateE0_good s c h
  · exact stateLit_good _ _ _ s c (by simp)
  · exact stateLit_good _ _ _ s c (by simp)
  · exact stateLit_good _ _ _ s c (by simp)
  · exact stateLit_good _ _ _ s c (by simp)
  · exact stateLit_good _ _ _ s c (by simp)
  · exact stateLit_good _ _ _ s c (by simp)
  · exact stateLit_good _ _ _ s c (by simp)
  · exact stateLit_good _ _ _ s c (by simp)
  · exact stateLit_good _ _ _ s c (by simp)
  · exact stateLit_good _ _ _ s c (by simp)
  · rename_i hs
    exact ⟨h, fun _ => h hs⟩

theorem readValueLoop_error (buf : List Nat) (rest : List Nat) (s : Scanner) (scanp : Nat)
    (e : GoError) (hs : s.ErrInv) (h : readValueLoop buf s rest scanp = .error e) :
    e = ioEOF ∨ e = ioErrUnexpectedEOF ∨ IsScanError (some e) := by
  induction rest generalizing s scanp with
  | nil =>
    unfold readValueLoop at h
    split_ifs at h
    · cases h; exact Or.inr (Or.inl rfl)
    · cases h; exact Or.inl rfl
  | cons c rest ih =>
    have hg : StepGood (({ s with bytes := s.bytes + 1 } : Scanner).stepCall c) :=
      stepCall_good _ c (fun h' => hs h')
    unfold readValueLoop at h
    dsimp only at h
    split at h
    · cases h
    · split_ifs at h
      exact ih _ _ (stateEndValue_good _ 32 hg.1).1 h
    · split_ifs at h
      exact ih _ _ (stateEndValue_good _ 32 hg.1).1 h
    · rename_i hop
      obtain ⟨c', ctx, off, herr⟩ := hg.2 hop
      rw [herr] at h
      cases h
      exact Or.inr (Or.inr ⟨c', ctx, off, rfl⟩)
    · exact ih _ _ hg.1 h

/-- Every error `Decoder.readValue` reports on a file that can be read to its end is
`io.EOF`, `io.ErrUnexpectedEOF`, or a syntax error that starts with `invalid character`. -/
theorem readValue_error (content : List Nat) (e : GoError)
    (h : readValue content = .error e) :
    e = ioEOF ∨ e = ioErrUnexpectedEOF ∨ IsScanError (some e) :=
  readValueLoop_error content content _ 0 e (fun h' => by simp [Scanner.reset] at h') h

theorem hasPrefixL_append (a b : List Char) : hasPrefixL (a ++ b) a = true := by
  rw [hasPrefixL_iff]; exact List.prefix_append a b

theorem containsL_of_hasPrefixL (s p : List Char) (h : hasPrefixL s p = true) :
    containsL s p = true := by
  rw [containsL_iff]; rw [hasPrefixL_iff] at h; exact h.isInfix

theorem scanError_contains (e : GoError) (h : IsScanError (some e)) :
    stringsContains e.Error "invalid character" = true := by
  obtain ⟨c, ctx, off, he⟩ := h
  cases he
  unfold stringsContains
  rw [containsL_iff]
  simp only [GoError.Error, String.data_append]
  refine ⟨[], Char.ofNat 32 :: ((quoteChar c).data ++ " ".data ++ ctx.data), ?_⟩
  simp [List.append_assoc]

/-- On a file that opens, `loadConfig` over the JSON decoder replaces every syntax error of
the scanner by the clean message; the two end-of-file errors pass through unchanged. -/
theorem loadConfig_json_scan_errors {Cfg : Type} (fs : String → Except GoError (List Nat))
    (unmarshal : List Nat → Cfg → Cfg × Option GoError) (path : String)
    (content : List Nat) (st : ConfigState Cfg) (e : GoError)
    (hopen : fs path = .ok content) (h : readValue content = .error e) :
    (IsScanError (some e) ∧
      (loadConfig (jsonEnv fs unmarshal) path st).2 = some (fmtErrorf notValidJSON)) ∨
    ((e = ioEOF ∨ e = ioErrUnexpectedEOF) ∧
      (loadConfig (jsonEnv fs unmarshal) path st).2 = some e) := by
  rcases readValue_error content e h with h1 | h1 | h1
  · right
    subst h1
    refine ⟨Or.inl rfl, ?_⟩
    have c : stringsContains ioEOF.Error "invalid character" = false := by decide
    simp [loadConfig, jsonEnv, hopen, jsonDecode, h, c]
  · right
    subst h1
    refine ⟨Or.inr rfl, ?_⟩
    have c : stringsContains ioErrUnexpectedEOF.Error "invalid character" = false := by decide
    simp [loadConfig, jsonEnv, hopen, jsonDecode, h, c]
  · left
    refine ⟨h1, ?_⟩
    have c := scanError_contains e h1
    simp [loadConfig, jsonEnv, hopen, jsonDecode, h, c]

/-! ## `loadConfig` -/

/-- Claim C1. For every path whose file opens, the result of `loadConfig` is decided by the
outcome of the decoder alone: when decoding succeeds it returns nil; when decoding fails with
an error whose text contains `invalid character` it returns an error whose message is exactly
`configuration file is not valid JSON`, in which the raw parser text does not occur; every
other decode error is returned unchanged. -/
theorem loadConfig_decided_by_decoder {Cfg : Type} (env : LoadEnv Cfg) (path : String)
    (st : ConfigState Cfg) (file : List Nat) (hopen : env.osOpen path = .ok file) :
    ((env.decode file st.G).2 = none → (loadConfig env path st).2 = none) ∧
    (∀ e, (env.decode file st.G).2 = some e →
      stringsContains e.Error "invalid character" = true →
      ∃ r, (loadConfig env path st).2 = some r ∧
        r.Error = "configuration file is not valid JSON" ∧
        stringsContains r.Error e.Error = false) ∧
    (∀ e, (env.decode file st.G).2 = some e →
      stringsContains e.Error "invalid character" = false →
      (loadConfig env path st).2 = some e) := by
  refine ⟨?_, ?_, ?_⟩
  · intro h
    simp [loadConfig, hopen, h]
  · intro e h hc
    refine ⟨fmtErrorf notValidJSON, ?_, rfl, notValidJSON_hides_raw _ hc⟩
    simp [loadConfig, hopen, h, hc]
  · intro e h hc
    simp [loadConfig, hopen, h, hc]

theorem loadConfig_decided_by_decoder_witness :
    (jsonEnv (oneFile "./config.json" (asciiBytes "\x7bfoo: 1\x7d")) unmarshalNothing).osOpen
      "./config.json" = .ok (asciiBytes "\x7bfoo: 1\x7d") ∧
    ∃ r, (loadConfig (jsonEnv (oneFile "./config.json" (asciiBytes "\x7bfoo: 1\x7d"))
        unmarshalNothing) "./config.json" { G := (), calls := [] }).2 = some r ∧
      r.Error = "configuration file is not valid JSON" ∧
      stringsContains r.Error (GoError.jsonSyntaxError
        "invalid character 'f' looking for beginning of object key string" 2).Error = false :=
  ⟨by decide,
   (loadConfig_decided_by_decoder
      (jsonEnv (oneFile "./config.json" (asciiBytes "\x7bfoo: 1\x7d")) unmarshalNothing)
      "./config.json" { G := (), calls := [] } (asciiBytes "\x7bfoo: 1\x7d")
      (by decide)).2.1 _ (by decide) (by decide)⟩

/-- Claim C3. For every path that cannot be opened, `loadConfig` returns the open error
itself, makes no call after `os.Open` (the decoder is never reached), and leaves `config.G`
equal to its value before the call. -/
theorem loadConfig_open_error {Cfg : Type} (env : LoadEnv Cfg) (path : String)
    (st : ConfigState Cfg) (err : GoError) (hopen : env.osOpen path = .error err) :
    (loadConfig env path st).2 = some err ∧
    (loadConfig env path st).1.calls = st.calls ++ [.osOpen path] ∧
    (loadConfig env path st).1.G = st.G := by
  simp [loadConfig, hopen]

theorem loadConfig_open_error_witness :
    (jsonEnv noFiles unmarshalNothing).osOpen "./missing.json"
      = .error (.pathError "open" "./missing.json" "no such file or directory") ∧
    (loadConfig (jsonEnv noFiles unmarshalNothing) "./missing.json"
      { G := (), calls := [] }).2
      = some (.pathError "open" "./missing.json" "no such file or directory") ∧
    (loadConfig (jsonEnv noFiles unmarshalNothing) "./missing.json"
      { G := (), calls := [] }).1.calls = [] ++ [.osOpen "./missing.json"] ∧
    (loadConfig (jsonEnv noFiles unmarshalNothing) "./missing.json"
      { G := (), calls := [] }).1.G = () :=
  ⟨by decide,
   loadConfig_open_error (jsonEnv noFiles unmarshalNothing) "./missing.json"
     { G := (), calls := [] } _ (by decide)⟩

/-- Claim C2, evaluated on the code. For every schema and every prior state: on a file
truncated before the document is complete (`{"foo": "bar"`) `loadConfig` returns the
decoder's `unexpected EOF`, and on an empty file it returns `EOF`; neither is the message
`configuration file is not valid JSON`, which a trailing comma (`{"foo": "bar",}`) does
produce. -/
theorem loadConfig_truncated_json_not_normalised {Cfg : Type}
    (unmarshal : List Nat → Cfg → Cfg × Option GoError) (st : ConfigState Cfg) :
    (loadConfig (jsonEnv (oneFile "./config.json" (asciiBytes "\x7b\"foo\": \"bar\""))
      unmarshal) "./config.json" st).2 = some (.errorString "unexpected EOF") ∧
    (loadConfig (jsonEnv (oneFile "./config.json" []) unmarshal) "./config.json" st).2
      = some (.errorString "EOF") ∧
    (loadConfig (jsonEnv (oneFile "./config.json" (asciiBytes "\x7b\"foo\": \"bar\",\x7d"))
      unmarshal) "./config.json" st).2
      = some (.errorString "configuration file is not valid JSON") := by
  have h1 : readValue (asciiBytes "\x7b\"foo\": \"bar\"") = .error ioErrUnexpectedEOF := by
    decide
  have h2 : readValue [] = .error ioEOF := by decide
  have h3 : readValue (asciiBytes "\x7b\"foo\": \"bar\",\x7d") = .error
      (.jsonSyntaxError
        "invalid character '\x7d' looking for beginning of object key string" 15) := by
    decide
  have c1 : stringsContains (GoError.errorString "unexpected EOF").Error "invalid character" = false := by decide
  have c2 : stringsContains (GoError.errorString "EOF").Error "invalid character" = false := by decide
  have c3 : stringsContains (GoError.jsonSyntaxError
      "invalid character '\x7d' looking for beginning of object key string" 15).Error
      "invalid character" = true := by decide
  refine ⟨?_, ?_, ?_⟩
  · simp [loadConfig, jsonEnv, oneFile, jsonDecode, h1, c1, ioErrUnexpectedEOF]
  · simp [loadConfig, jsonEnv, oneFile, jsonDecode, h2, c2, ioEOF]
  · simp [loadConfig, jsonEnv, oneFile, jsonDecode, h3, c3, fmtErrorf, notValidJSON]

/-! ## Populating the configuration object -/

theorem populate_apply {Val : Type} (doc : List (String × Val)) (g : ConfigObject Val)
    (x : String) : populate doc g x = (lastValue doc x).getD (g x) := by
  induction doc generalizing g with
  | nil => rfl
  | cons kv rest ih =>
    obtain ⟨k, v⟩ := kv
    simp only [populate, lastValue, ih]
    cases h : lastValue rest x with
    | some w => simp
    | none =>
      by_cases hx : x = k
      · subst hx; simp
      · simp [hx, Function.update_noteq hx]

theorem populate_idempotent {Val : Type} (doc : List (String × Val)) (g : ConfigObject Val) :
    populate doc (populate doc g) = populate doc g := by
  funext x
  rw [populate_apply, populate_apply]
  cases lastValue doc x <;> simp

/-- Claim C9. For every file that opens, that the JSON scanner accepts as one complete value
(valid JSON) and whose unmarshalling succeeds by storing the fields of a document `doc` (it
matches the schema), and for every prior value of the configuration object: `loadConfig`
returns nil, the object then holds the value the document gives each of its fields, and
loading the same file a second time returns nil and leaves the object equal to its value
after the first load. -/
theorem loadConfig_reload_idempotent {Val : Type} (fs : String → Except GoError (List Nat))
    (unmarshal : List Nat → ConfigObject Val → ConfigObject Val × Option GoError)
    (path : String) (content : List Nat) (n : Nat) (doc : List (String × Val))
    (hopen : fs path = .ok content)
    (hjson : readValue content = .ok n)
    (hschema : ∀ g, unmarshal (content.take n) g = (populate doc g, none))
    (st : ConfigState (ConfigObject Val)) :
    (loadConfig (jsonEnv fs unmarshal) path st).2 = none ∧
    (∀ k v, lastValue doc k = some v →
      (loadConfig (jsonEnv fs unmarshal) path st).1.G k = v) ∧
    (loadConfig (jsonEnv fs unmarshal) path
      (loadConfig (jsonEnv fs unmarshal) path st).1).2 = none ∧
    (loadConfig (jsonEnv fs unmarshal) path
      (loadConfig (jsonEnv fs unmarshal) path st).1).1.G
      = (loadConfig (jsonEnv fs unmarshal) path st).1.G := by
  have h1 : ∀ s : ConfigState (ConfigObject Val),
      (loadConfig (jsonEnv fs unmarshal) path s).2 = none ∧
      (loadConfig (jsonEnv fs unmarshal) path s).1.G = populate doc s.G := by
    intro s
    simp [loadConfig, jsonEnv, jsonDecode, hopen, hjson, hschema]
  refine ⟨(h1 st).1, ?_, (h1 _).1, ?_⟩
  · intro k v hk
    rw [(h1 st).2, populate_apply, hk]
    rfl
  · rw [(h1 _).2, (h1 st).2, populate_idempotent]

theorem loadConfig_reload_idempotent_witness :
    oneFile "./config.json" (asciiBytes sampleFile) "./config.json"
      = .ok (asciiBytes sampleFile) ∧
    readValue (asciiBytes sampleFile) = .ok 77 ∧
    (loadConfig sampleEnv "./config.json" { G := fun _ => "", calls := [] }).2 = none ∧
    (loadConfig sampleEnv "./config.json"
      (loadConfig sampleEnv "./config.json" { G := fun _ => "", calls := [] }).1).1.G
      = (loadConfig sampleEnv "./config.json" { G := fun _ => "", calls := [] }).1.G :=
  have h := loadConfig_reload_idempotent (oneFile "./config.json" (asciiBytes sampleFile))
    (fun _ g => (populate sampleDoc g, none)) "./config.json" (asciiBytes sampleFile) 77
    sampleDoc (by decide) (by decide) (fun _ => rfl) { G := fun _ => "", calls := [] }
  ⟨by decide, by decide, h.1, h.2.2.2⟩

/-! ## The logger: verbosity and emission -/

theorem runOps_append (a b : List LoggerOp) (st : LoggerState) :
    runOps (a ++ b) st = runOps b (runOps a st) := by
  simp [runOps, List.foldl_append]

theorem runOps_cons (op : LoggerOp) (ops : List LoggerOp) (st : LoggerState) :
    runOps (op :: ops) st = runOps ops (op.apply st) := rfl

theorem emit_fst_verbose (lvl : Level) (done : String → Control) (msg : String)
    (st : LoggerState) :
    (emit lvl done msg st).1.verbose = st.verbose ∧
    (emit lvl done msg st).1.gLevel = st.gLevel ∧
    (emit lvl done msg st).1.log = st.log := by
  unfold emit emitOn
  split <;> simp

theorem SetVerbose_consistent (v : Bool) (st : LoggerState) :
    verbosityConsistent (SetVerbose v st) := by
  cases v <;>
    simp [verbosityConsistent, SetVerbose, SetGlobalLevel, GetVerbose, admitsDebug,
      DebugLevel, Disabled]

theorem apply_preserves_consistent (op : LoggerOp) (st : LoggerState)
    (h : verbosityConsistent st) : verbosityConsistent (op.apply st) := by
  cases op with
  | initLogger => exact h
  | setVerbose v => exact SetVerbose_consistent v st
  | info msg =>
    have e := emit_fst_verbose InfoLevel (fun _ => .returns) msg st
    simpa [verbosityConsistent, LoggerOp.apply, Info, GetVerbose, admitsDebug, e.1, e.2.1]
      using h
  | debug msg =>
    have e := emit_fst_verbose DebugLevel (fun _ => .returns) msg st
    simpa [verbosityConsistent, LoggerOp.apply, Debug, GetVerbose, admitsDebug, e.1, e.2.1]
      using h
  | warn msg =>
    have e := emit_fst_verbose WarnLevel (fun _ => .returns) msg st
    simpa [verbosityConsistent, LoggerOp.apply, Warn, GetVerbose, admitsDebug, e.1, e.2.1]
      using h
  | error msg =>
    have e := emit_fst_verbose ErrorLevel (fun _ => .returns) msg st
    simpa [verbosityConsistent, LoggerOp.apply, Error, GetVerbose, admitsDebug, e.1, e.2.1]
      using h

theorem runOps_preserves_consistent (ops : List LoggerOp) (st : LoggerState)
    (h : verbosityConsistent st) : verbosityConsistent (runOps ops st) := by
  induction ops generalizing st with
  | nil => exact h
  | cons op ops ih => exact ih _ (apply_preserves_consistent op st h)

theorem runOps_consistent_of_setVerbose (ops : List LoggerOp) (st : LoggerState)
    (h : ∃ v, LoggerOp.setVerbose v ∈ ops) : verbosityConsistent (runOps ops st) := by
  induction ops generalizing st with
  | nil => simp at h
  | cons op ops ih =>
    obtain ⟨v, hv⟩ := h
    rw [runOps_cons]
    rcases List.mem_cons.1 hv with h1 | h1
    · subst h1
      exact runOps_preserves_consistent ops _ (SetVerbose_consistent v st)
    · exact ih _ ⟨v, h1⟩

/-! ### Emission -/

theorem apply_gLevel_of_not_setVerbose (op : LoggerOp) (st : LoggerState)
    (h : op.isSetVerbose = false) : (op.apply st).gLevel = st.gLevel := by
  cases op with
  | initLogger => rfl
  | setVerbose v => simp [LoggerOp.isSetVerbose] at h
  | info msg => exact (emit_fst_verbose _ _ _ _).2.1
  | debug msg => exact (emit_fst_verbose _ _ _ _).2.1
  | warn msg => exact (emit_fst_verbose _ _ _ _).2.1
  | error msg => exact (emit_fst_verbose _ _ _ _).2.1

theorem runOps_gLevel_of_no_setVerbose (ops : List LoggerOp) (st : LoggerState)
    (h : ∀ op ∈ ops, op.isSetVerbose = false) : (runOps ops st).gLevel = st.gLevel := by
  induction ops generalizing st with
  | nil => rfl
  | cons op ops ih =>
    rw [runOps_cons, ih _ (fun o ho => h o (List.mem_cons_of_mem _ ho)),
      apply_gLevel_of_not_setVerbose op st (h op (List.mem_cons_self _ _))]

/-- The logger `InitLogger` builds. -/
theorem InitLogger_log (st : LoggerState) :
    (InitLogger st).log = zerologNew { timeFormat := "2006-01-02 15:04:05" } := rfl

theorem apply_log_initialised (op : LoggerOp) (st : LoggerState)
    (h : st.log = zerologNew { timeFormat := "2006-01-02 15:04:05" }) :
    (op.apply st).log = zerologNew { timeFormat := "2006-01-02 15:04:05" } := by
  cases op with
  | initLogger => rfl
  | setVerbose v => cases v <;> simpa [LoggerOp.apply, SetVerbose, SetGlobalLevel] using h
  | info msg => exact ((emit_fst_verbose _ _ _ _).2.2).trans h
  | debug msg => exact ((emit_fst_verbose _ _ _ _).2.2).trans h
  | warn msg => exact ((emit_fst_verbose _ _ _ _).2.2).trans h
  | error msg => exact ((emit_fst_verbose _ _ _ _).2.2).trans h

theorem runOps_log_initialised (ops : List LoggerOp) (st : LoggerState)
    (h : st.log = zerologNew { timeFormat := "2006-01-02 15:04:05" }) :
    (runOps ops st).log = zerologNew { timeFormat := "2006-01-02 15:04:05" } := by
  induction ops generalizing st with
  | nil => exact h
  | cons op ops ih => exact ih _ (apply_log_initialised op st h)

theorem runOps_log_of_initLogger (ops : List LoggerOp) (st : LoggerState)
    (h : LoggerOp.initLogger ∈ ops) :
    (runOps ops st).log = zerologNew { timeFormat := "2006-01-02 15:04:05" } := by
  induction ops generalizing st with
  | nil => simp at h
  | cons op ops ih =>
    rw [runOps_cons]
    rcases List.mem_cons.1 h with h1 | h1
    · subst h1
      exact runOps_log_initialised ops _ rfl
    · exact ih _ h1

theorem SetVerbose_gLevel (v : Bool) (st : LoggerState) :
    (SetVerbose v st).gLevel = if v then DebugLevel else Disabled := by
  cases v <;> simp [SetVerbose, SetGlobalLevel]

theorem emit_enabled (lvl : Level) (done : String → Control) (msg : String)
    (st : LoggerState) (hlog : st.log = zerologNew { timeFormat := "2006-01-02 15:04:05" })
    (hg : st.gLevel = DebugLevel) (hl : 0 ≤ lvl) :
    emit lvl done msg st =
      ({ st with stdout := st.stdout ++ [{ level := lvl, message := msg, fields := [] }] },
        done msg) := by
  have h1 : ¬ lvl < -1 := not_lt.mpr (le_trans (by decide : (-1 : Int) ≤ 0) hl)
  have h2 : ¬ lvl < 0 := not_lt.mpr hl
  simp [emit, emitOn, ZLogger.should, hlog, hg, zerologNew, TraceLevel, DebugLevel,
    Event.msgLine, h1, h2]

theorem emit_disabled (lvl : Level) (done : String → Control) (msg : String)
    (st : LoggerState) (hg : st.gLevel = Disabled) (hl : lvl < 7) :
    emit lvl done msg st = (st, done "") := by
  simp [emit, emitOn, ZLogger.should, hg, Disabled, hl]

/-- Claim C4 fails in the initial state and in the state after `InitLogger` alone:
`GetVerbose()` is false while zerolog's global level is `TraceLevel`, which admits debug and
is not `Disabled`; a `Debug` call after `InitLogger` alone writes its line. -/
theorem verbosity_inconsistent_at_start :
    ¬ verbosityConsistent LoggerState.initial ∧
    ¬ verbosityConsistent (runOps [.initLogger] LoggerState.initial) ∧
    GetVerbose LoggerState.initial = false ∧
    LoggerState.initial.gLevel = TraceLevel ∧
    (runOps [.initLogger] LoggerState.initial).gLevel = TraceLevel ∧
    admitsDebug (runOps [.initLogger] LoggerState.initial) ∧
    (Debug "x" (InitLogger LoggerState.initial)).1.stdout
      = [{ level := DebugLevel, message := "x", fields := [] }] := by
  refine ⟨?_, ?_, rfl, rfl, rfl, ?_, by decide⟩
  · simp [verbosityConsistent, LoggerState.initial, GetVerbose, admitsDebug, DebugLevel,
      Disabled, TraceLevel]
  · simp [verbosityConsistent, LoggerState.initial, GetVerbose, admitsDebug, DebugLevel,
      Disabled, TraceLevel, runOps, LoggerOp.apply, InitLogger]
  · simp [LoggerState.initial, admitsDebug, DebugLevel, TraceLevel, runOps, LoggerOp.apply,
      InitLogger]

/-- Claim C4, amended. In every state reached from the initial state by a sequence of calls
that contains at least one `SetVerbose`, the verbosity flag and the global level agree:
`GetVerbose()` is true exactly when the global level admits debug, and false exactly when
the global level is `Disabled`. In particular `GetVerbose()` returns `v` after
`SetVerbose(v)`, from any state. -/
theorem verbosity_consistent_after_SetVerbose (ops : List LoggerOp)
    (hset : ∃ v, LoggerOp.setVerbose v ∈ ops) :
    verbosityConsistent (runOps ops LoggerState.initial) ∧
    ∀ (st : LoggerState) (v : Bool), GetVerbose (SetVerbose v st) = v := by
  refine ⟨runOps_consistent_of_setVerbose ops _ hset, ?_⟩
  intro st v
  cases v <;> simp [SetVerbose, SetGlobalLevel, GetVerbose]

theorem verbosity_consistent_after_SetVerbose_witness :
    (∃ v, LoggerOp.setVerbose v ∈ [LoggerOp.initLogger, .setVerbose true, .initLogger,
      .setVerbose false]) ∧
    verbosityConsistent (runOps [.initLogger, .setVerbose true, .initLogger,
      .setVerbose false] LoggerState.initial) :=
  ⟨⟨true, by decide⟩,
   (verbosity_consistent_after_SetVerbose _ ⟨true, by decide⟩).1⟩

/-- Claim C5. After `InitLogger`, whether an emit call writes a line depends only on the most
recent `SetVerbose(v)` before it, whatever calls came earlier (`pre`) and whatever calls other
than `SetVerbose` came in between (`mid`): after `SetVerbose(true)`, `Debug`, `Info`,
`Debugf` and `Infof` append one line with their message; after `SetVerbose(false)`, `Info`,
`Debug`, `Warn`, `Error` and their format forms leave the state, and so the output,
unchanged. -/
theorem emit_follows_latest_SetVerbose {Arg : Type} (sprintf : String → List Arg → String)
    (pre mid : List LoggerOp) (v : Bool)
    (hinit : LoggerOp.initLogger ∈ pre ++ mid)
    (hmid : ∀ op ∈ mid, op.isSetVerbose = false)
    (msg format : String) (args : List Arg) :
    let st := runOps (pre ++ [.setVerbose v] ++ mid) LoggerState.initial
    let wrote := fun (lvl : Level) (m : String) =>
      { st with stdout := st.stdout ++ [{ level := lvl, message := m, fields := [] }] }
    (v = true →
      Debug msg st = (wrote DebugLevel msg, .returns) ∧
      Info msg st = (wrote InfoLevel msg, .returns) ∧
      Debugf sprintf format args st = (wrote DebugLevel (sprintf format args), .returns) ∧
      Infof sprintf format args st = (wrote InfoLevel (sprintf format args), .returns)) ∧
    (v = false →
      Info msg st = (st, .returns) ∧ Debug msg st = (st, .returns) ∧
      Warn msg st = (st, .returns) ∧ Error msg st = (st, .returns) ∧
      Infof sprintf format args st = (st, .returns) ∧
      Debugf sprintf format args st = (st, .returns) ∧
      Warnf sprintf format args st = (st, .returns) ∧
      Errorf sprintf format args st = (st, .returns)) := by
  intro st wrote
  have hlog : st.log = zerologNew { timeFormat := "2006-01-02 15:04:05" } := by
    apply runOps_log_of_initLogger
    simp only [List.mem_append, List.mem_singleton] at hinit ⊢
    tauto
  have hg : st.gLevel = if v then DebugLevel else Disabled := by
    show (runOps (pre ++ [.setVerbose v] ++ mid) LoggerState.initial).gLevel = _
    rw [runOps_append, runOps_gLevel_of_no_setVerbose mid _ hmid, runOps_append]
    exact SetVerbose_gLevel v _
  constructor
  · intro hv
    subst hv
    simp only [if_true] at hg
    refine ⟨?_, ?_, ?_, ?_⟩
    · exact emit_enabled DebugLevel _ msg st hlog hg (by decide)
    · exact emit_enabled InfoLevel _ msg st hlog hg (by decide)
    · exact emit_enabled DebugLevel _ _ st hlog hg (by decide)
    · exact emit_enabled InfoLevel _ _ st hlog hg (by decide)
  · intro hv
    subst hv
    simp only [Bool.false_eq_true, if_false] at hg
    refine ⟨?_, ?_, ?_, ?_, ?_, ?_, ?_, ?_⟩
    · exact emit_disabled InfoLevel _ msg st hg (by decide)
    · exact emit_disabled DebugLevel _ msg st hg (by decide)
    · exact emit_disabled WarnLevel _ msg st hg (by decide)
    · exact emit_disabled ErrorLevel _ msg st hg (by decide)
    · exact emit_disabled InfoLevel _ _ st hg (by decide)
    · exact emit_disabled DebugLevel _ _ st hg (by decide)
    · exact emit_disabled WarnLevel _ _ st hg (by decide)
    · exact emit_disabled ErrorLevel _ _ st hg (by decide)

theorem emit_follows_latest_SetVerbose_witness :
    LoggerOp.initLogger ∈ [LoggerOp.initLogger, .setVerbose false, .debug "dropped"]
      ++ [.info "kept"] ∧
    (∀ op ∈ [LoggerOp.info "kept"], op.isSetVerbose = false) ∧
    (Debug "hello" (runOps ([.initLogger, .setVerbose false, .debug "dropped"]
        ++ [.setVerbose true] ++ [.info "kept"]) LoggerState.initial)).1.stdout
      = [{ level := InfoLevel, message := "kept", fields := [] },
         { level := DebugLevel, message := "hello", fields := [] }] ∧
    Error "hello" (runOps ([.initLogger, .setVerbose true, .debug "written"]
        ++ [.setVerbose false] ++ [.initLogger]) LoggerState.initial)
      = (runOps ([.initLogger, .setVerbose true, .debug "written"]
        ++ [.setVerbose false] ++ [.initLogger]) LoggerState.initial, .returns) :=
  ⟨by decide, by decide,
   by
    have h := (emit_follows_latest_SetVerbose (fun (f : String) (_ : List String) => f)
      [.initLogger, .setVerbose false, .debug "dropped"] [.info "kept"] true
      (by decide) (by decide) "hello" "" []).1 rfl
    rw [h.1]
    decide,
   ((emit_follows_latest_SetVerbose (fun (f : String) (_ : List String) => f)
      [.initLogger, .setVerbose true, .debug "written"] [.initLogger] false
      (by decide) (by decide) "hello" "" []).2 rfl).2.2.2.1⟩

/-! ## `callerHook` -/

/-- Claim C10, evaluated on the code. For the caller location
`/home/user/bepass/cmd/cli/main.go`, line 42, `callerHook.Run` attaches the source field
`main.go:*` (the character with code point 42), where base name, colon and decimal line
number give `main.go:42`. -/
theorem callerHook_writes_rune_not_decimal :
    callerHook.Run (some ("/home/user/bepass/cmd/cli/main.go", 42))
      { level := InfoLevel, fields := [] } InfoLevel "starting"
      = { level := InfoLevel, fields := [("source", "main.go:*")] } ∧
    pathBase "/home/user/bepass/cmd/cli/main.go" ++ ":" ++ Nat.repr 42 = "main.go:42" ∧
    "main.go:*" ≠ "main.go:42" := by
  decide

theorem toDigitsCore_length_ge (fuel n : Nat) (ds : List Char) :
    ds.length ≤ (Nat.toDigitsCore 10 fuel n ds).length := by
  induction fuel generalizing n ds with
  | zero => simp [Nat.toDigitsCore]
  | succ f ih =>
    simp only [Nat.toDigitsCore]
    split
    · simp
    · exact le_trans (by simp) (ih _ _)

theorem repr_length_ge_two (n : Nat) (h : 10 ≤ n) : 2 ≤ (Nat.repr n).data.length := by
  obtain ⟨m, rfl⟩ : ∃ m, n = m + 1 := ⟨n - 1, by omega⟩
  have h0 : (m + 1) / 10 ≠ 0 := by omega
  simp only [Nat.repr, Nat.toDigits, List.asString, Nat.toDigitsCore, h0, if_false]
  split
  · simp
  · exact le_trans (by simp) (toDigitsCore_length_ge _ _ _)

/-- For no line number does the hook write the decimal form. -/
theorem callerHook_never_decimal (file : String) (line : Nat) (e : Event) (level : Level)
    (msg : String) :
    callerHook.Run (some (file, (line : Int))) e level msg
      ≠ e.Str "source" (pathBase file ++ ":" ++ Nat.repr line) := by
  intro h
  simp only [callerHook.Run, Event.Str, Event.mk.injEq, true_and, List.append_cancel_left_eq,
    List.cons.injEq, Prod.mk.injEq, and_true] at h
  have h' := congrArg String.data h
  rw [String.data_append, String.data_append, String.data_append, String.data_append] at h'
  have hd := List.append_cancel_left h'
  by_cases hl : line < 10
  · interval_cases line <;> revert hd <;> decide
  · have h2 := repr_length_ge_two line (by omega)
    rw [← hd] at h2
    unfold stringOfRune at h2
    split at h2 <;> simp [String.singleton] at h2

/-- The hook leaves the level and the fields already present untouched. -/
theorem callerHook_keeps_event (caller : Option (String × Int)) (e : Event) (level : Level)
    (msg : String) :
    (callerHook.Run caller e level msg).level = e.level ∧
    e.fields <+: (callerHook.Run caller e level msg).fields ∧
    (Event.msgLine caller [.callerHook] e msg).message = msg := by
  cases caller with
  | none => simp [callerHook.Run, Event.msgLine]
  | some c => obtain ⟨f, l⟩ := c; simp [callerHook.Run, Event.msgLine, Event.Str]

/-! ## `main` -/

theorem Fatal_exits (msg : String) (st : LoggerState) : (Fatal msg st).2 = .exit 1 := by
  unfold Fatal emit emitOn
  split <;> rfl

/-- Whatever makes `loadConfig` fail, a run of `main` from program start reaches
`logger.Fatal` with the package logger untouched: the logger state at exit is the initial
one, so nothing was written, and the exit status is 1. -/
theorem main_config_error_writes_nothing {Cfg : Type} (env : MainEnv Cfg) (g : Cfg)
    (err : GoError)
    (h : (loadConfig env.load env.flags.configPath (Proc.initial g).config).2 = some err) :
    (main env (Proc.initial g)).logger = LoggerState.initial ∧
    (main env (Proc.initial g)).exitStatus = some 1 := by
  have h0 : (loadConfig env.load env.flags.configPath { G := g, calls := [] }).2 = some err :=
    h
  simp [main, Proc.initial, h0, fatalThen, Fatal_exits]
  simp [Fatal, emit, emitOn, ZLogger.should, LoggerState.initial, ZLogger.zero]

/-- Claim C6. In every run of `main`, followed in the program order of the main goroutine:
when `loadConfig` returns an error, `main` calls
`logger.Fatal` with its text, the process ends with exit status 1 and `server.Run` is never
invoked; when `loadConfig` returns nil, `server.Run` is invoked after it, exactly once, with
the parsed value of the `-verbose` flag. -/
theorem main_server_only_after_config {Cfg : Type} (env : MainEnv Cfg) (p : Proc Cfg) :
    (∀ err, (loadConfig env.load env.flags.configPath p.config).2 = some err →
      (main env p).events = p.events ++
        [.flagParse, .loadConfig env.flags.configPath, .loggerFatal (fmtSprint err),
         .osExit 1] ∧
      (main env p).exitStatus = some 1 ∧
      countServerRun (main env p).events = countServerRun p.events) ∧
    ((loadConfig env.load env.flags.configPath p.config).2 = none →
      ∃ tail, (main env p).events = p.events ++
        [.flagParse, .loadConfig env.flags.configPath, .withCancel, .goHandleShutdown,
         .serverRun env.flags.verbose] ++ tail ∧
        countServerRun tail = 0 ∧
        countServerRun (main env p).events = countServerRun p.events + 1) := by
  constructor
  · intro err h
    simp [main, h, fatalThen, Fatal_exits, countServerRun]
  · intro h
    simp only [main, h, mainServe]
    cases hr : (env.serverRun env.flags.verbose p.logger).2 with
    | none =>
      refine ⟨[.deferredCancel], ?_, ?_, ?_⟩ <;>
        simp [mainReturn, countServerRun, hr]
    | some err =>
      refine ⟨[.loggerFatal (fmtSprint err), .osExit 1], ?_, ?_, ?_⟩ <;>
        simp [fatalThen, Fatal_exits, countServerRun, hr]

theorem main_server_only_after_config_witness :
    (main (envWithConfig "\x7b\"foo\": \"bar\"\x7d") (Proc.initial ())).events =
      [.flagParse, .loadConfig "./config.json", .withCancel, .goHandleShutdown,
       .serverRun true, .deferredCancel] ∧
    (main envMissingConfig (Proc.initial ())).events =
      [.flagParse, .loadConfig "./config.json",
       .loggerFatal "open ./config.json: no such file or directory", .osExit 1] := by
  have h := main_server_only_after_config envMissingConfig (Proc.initial ())
  constructor
  · decide
  · exact (h.1 (.pathError "open" "./config.json" "no such file or directory") (by decide)).1

/-- Claim C7, evaluated on the code. In a run of `main` whose configuration file does not
exist, `loadConfig` returns the open error and `main` calls `logger.Fatal` while the package
logger is still the zero `zerolog.Logger` (no `InitLogger` call precedes it): nothing is
written to standard output and the process exits with status 1. -/
theorem main_fatal_before_InitLogger :
    (main envMissingConfig (Proc.initial ())).events =
      [.flagParse, .loadConfig "./config.json",
       .loggerFatal "open ./config.json: no such file or directory", .osExit 1] ∧
    (main envMissingConfig (Proc.initial ())).logger.log = ZLogger.zero ∧
    (main envMissingConfig (Proc.initial ())).logger.stdout = [] ∧
    (main envMissingConfig (Proc.initial ())).exitStatus = some 1 := by
  decide

/-! ## `handleShutdown` -/

theorem deliver_pc (sig : Option Signal) (st : ShutdownState) :
    (deliver sig st).pc = st.pc ∧ (deliver sig st).events = st.events ∧
    (deliver sig st).subscribed = st.subscribed := by
  unfold deliver
  cases sig with
  | none => simp
  | some s => dsimp only; split <;> simp

theorem deliver_chan_of_not_subscribed (sig : Option Signal) (st : ShutdownState)
    (h : st.subscribed = []) : (deliver sig st).chan = st.chan := by
  unfold deliver
  cases sig with
  | none => rfl
  | some s => simp [h]

theorem tick_inv (sig : Option Signal) (st : ShutdownState) (h : st.Inv) :
    (handleShutdownStep (deliver sig st)).Inv := by
  obtain ⟨hpc, hev, hsub⟩ := deliver_pc sig st
  unfold ShutdownState.Inv at h
  cases hp : st.pc <;> rw [hp] at h hpc
  · obtain ⟨h1, h2, h3⟩ := h
    have hc := deliver_chan_of_not_subscribed sig st h3
    simp [handleShutdownStep, hpc, ShutdownState.Inv, hev, hsub, hc, h1, h2, h3]
  · obtain ⟨h1, h2, h3⟩ := h
    have hc := deliver_chan_of_not_subscribed sig st h3
    simp [handleShutdownStep, hpc, ShutdownState.Inv, hev, hsub, hc, h1, h2, h3]
  · obtain ⟨h1, h2, h3⟩ := h
    unfold handleShutdownStep
    rw [hpc]
    dsimp only
    cases hch : (deliver sig st).chan with
    | nil => simp [ShutdownState.Inv, hpc, hev, hsub, hch, h1, h3]
    | cons a rest => simp [ShutdownState.Inv, hev, h1]
  · simp [handleShutdownStep, hpc, ShutdownState.Inv, hev, h]
  · simp [handleShutdownStep, hpc, ShutdownState.Inv, hev, h]
  · simp [handleShutdownStep, hpc, ShutdownState.Inv, hev, h, shutdownSequence]
  · simp [handleShutdownStep, hpc, ShutdownState.Inv, hev, h]
  · exact h.elim

theorem handleShutdown_inv (sigs : List (Option Signal)) (st : ShutdownState) (h : st.Inv) :
    (handleShutdown sigs st).Inv := by
  induction sigs generalizing st with
  | nil => exact h
  | cons sig rest ih => exact ih _ (tick_inv sig st h)

theorem initial_inv : ShutdownState.initial.Inv := by
  simp [ShutdownState.Inv, ShutdownState.initial]

theorem handleShutdown_append (a b : List (Option Signal)) (st : ShutdownState) :
    handleShutdown (a ++ b) st = handleShutdown b (handleShutdown a st) := by
  induction a generalizing st with
  | nil => rfl
  | cons sig rest ih => exact ih _

/-- Once past the receive, each tick completes one more statement until the exit. -/
theorem tick_rank (sig : Option Signal) (st : ShutdownState) (h : 3 ≤ st.pc.rank)
    (hr : st.pc ≠ .returned) :
    (handleShutdownStep (deliver sig st)).pc.rank = min (st.pc.rank + 1) 6 := by
  obtain ⟨hpc, -, -⟩ := deliver_pc sig st
  cases hp : st.pc <;> rw [hp] at h hpc <;>
    simp_all [handleShutdownStep, ShutdownPC.rank]

theorem handleShutdown_rank (sigs : List (Option Signal)) (st : ShutdownState)
    (hinv : st.Inv) (h : 3 ≤ st.pc.rank) :
    (handleShutdown sigs st).pc.rank = min (st.pc.rank + sigs.length) 6 := by
  induction sigs generalizing st with
  | nil =>
    have : st.pc.rank ≤ 6 := by
      cases hp : st.pc <;> simp_all [ShutdownPC.rank, ShutdownState.Inv]
    simp [handleShutdown]; omega
  | cons sig rest ih =>
    have hr : st.pc ≠ .returned := by
      intro hp; simp [ShutdownState.Inv, hp] at hinv
    have h1 := tick_rank sig st h hr
    have h2 := ih _ (tick_inv sig st hinv) (by rw [h1]; omega)
    simp only [handleShutdown, h2, h1, List.length_cons]
    omega

theorem exited_of_rank (st : ShutdownState) (hinv : st.Inv) (h : st.pc.rank = 6) :
    st.pc = .exited ∧ st.events = shutdownSequence := by
  cases hp : st.pc <;> simp_all [ShutdownPC.rank, ShutdownState.Inv]

/-- After two ticks the goroutine has subscribed and is at the receive or beyond. -/
theorem handleShutdown_rank_ge_two (sigs : List (Option Signal)) (h : 2 ≤ sigs.length) :
    2 ≤ (handleShutdown sigs ShutdownState.initial).pc.rank := by
  match sigs, h with
  | a :: b :: rest, _ =>
    have h2 : (handleShutdown [a, b] ShutdownState.initial).pc = .receive := by
      cases a <;> cases b <;> rfl
    have hinv : (handleShutdown [a, b] ShutdownState.initial).Inv :=
      handleShutdown_inv _ _ initial_inv
    have key : ∀ (l : List (Option Signal)) (st : ShutdownState), st.Inv → 2 ≤ st.pc.rank →
        2 ≤ (handleShutdown l st).pc.rank := by
      intro l
      induction l with
      | nil => intro st _ h; exact h
      | cons sig l ih =>
        intro st hi hr
        apply ih _ (tick_inv sig st hi)
        by_cases h3 : 3 ≤ st.pc.rank
        · have hne : st.pc ≠ .returned := by
            intro hp; simp [ShutdownState.Inv, hp] at hi
          rw [tick_rank sig st h3 hne]; omega
        · have hp : st.pc = .receive := by
            cases hp : st.pc <;> simp_all [ShutdownPC.rank]
          obtain ⟨hpc, -, -⟩ := deliver_pc sig st
          rw [hp] at hpc
          unfold handleShutdownStep
          rw [hpc]
          dsimp only
          cases (deliver sig st).chan <;> simp [ShutdownPC.rank, hpc]
    have := key rest _ hinv (by rw [h2]; decide)
    rw [show a :: b :: rest = [a, b] ++ rest from rfl, handleShutdown_append]
    exact this

/-- A subscribed signal that arrives while the goroutine waits is received at once. -/
theorem tick_receives (s : Signal) (st : ShutdownState) (hinv : st.Inv)
    (h2 : 2 ≤ st.pc.rank) (hs : s = .SIGINT ∨ s = .SIGTERM) :
    3 ≤ (handleShutdownStep (deliver (some s) st)).pc.rank := by
  by_cases h3 : 3 ≤ st.pc.rank
  · have hne : st.pc ≠ .returned := by
      intro hp; simp [ShutdownState.Inv, hp] at hinv
    rw [tick_rank _ st h3 hne]; omega
  · have hp : st.pc = .receive := by
      cases hp : st.pc <;> simp_all [ShutdownPC.rank]
    simp only [ShutdownState.Inv, hp] at hinv
    obtain ⟨-, hc, hsub⟩ := hinv
    rcases hs with rfl | rfl <;>
      simp [deliver, handleShutdownStep, hp, hc, hsub, ShutdownPC.rank]

/-- A signal that is neither interrupt nor termination is never put on the channel. -/
theorem deliver_of_not_shutdown (sig : Option Signal) (st : ShutdownState)
    (hsub : ∀ s ∈ st.subscribed, s.isShutdown = true)
    (hsig : ∀ s, sig = some s → s.isShutdown = false) : deliver sig st = st := by
  cases sig with
  | none => rfl
  | some s =>
    have hs : s ∉ st.subscribed := by
      intro hmem
      have h1 := hsub s hmem
      rw [hsig s rfl] at h1
      exact Bool.noConfusion h1
    simp [deliver, hs]

/-- A tick that delivers no interrupt or termination signal leaves a quiet goroutine quiet:
the receive stays blocked. -/
theorem tick_quiet (sig : Option Signal) (st : ShutdownState) (hq : st.Quiet)
    (hsig : ∀ s, sig = some s → s.isShutdown = false) :
    (handleShutdownStep (deliver sig st)).Quiet := by
  obtain ⟨hr, hc, he, hsub⟩ := hq
  rw [deliver_of_not_shutdown sig st hsub hsig]
  cases hp : st.pc
  · refine ⟨?_, ?_, ?_, ?_⟩ <;>
      simp [handleShutdownStep, hp, ShutdownState.received, hc, he]
    exact hsub
  · refine ⟨?_, ?_, ?_, ?_⟩ <;>
      simp [handleShutdownStep, hp, ShutdownState.received, hc, he, Signal.isShutdown]
  · refine ⟨?_, ?_, ?_, ?_⟩ <;>
      simp [handleShutdownStep, hp, ShutdownState.received, hc, he]
    exact hsub
  all_goals simp [ShutdownState.received, hp] at hr

theorem handleShutdown_quiet (sigs : List (Option Signal)) (st : ShutdownState)
    (hq : st.Quiet) (hno : noShutdownSignal sigs) : (handleShutdown sigs st).Quiet := by
  induction sigs generalizing st with
  | nil => exact hq
  | cons sig rest ih =>
    apply ih _ (tick_quiet sig st hq ?_) (fun s hs => hno s (List.mem_cons_of_mem _ hs))
    intro s hs
    exact hno s (by rw [hs]; exact List.mem_cons_self _ _)

theorem initial_quiet : ShutdownState.initial.Quiet := by
  simp [ShutdownState.Quiet, ShutdownState.initial, ShutdownState.received]

/-- Claim C8. At every moment of every run of `handleShutdown`: the function has not
returned to its caller; as long as no interrupt or termination signal has been delivered it
has not got past the receive and has printed nothing, has not invoked the cancellation
function and has not exited, whatever other signals arrived; before it has received a signal
it has done none of these steps; once it has received one, what it has done is a prefix of
"print the notice, invoke the cancellation function once, exit with status 0", and three
ticks later it has done exactly that and the process has exited. A subscribed signal
(`SIGINT` or `SIGTERM`) delivered once the goroutine has subscribed is received, so the
sequence then runs to its end. -/
theorem handleShutdown_sequence (sigs : List (Option Signal)) :
    (handleShutdown sigs ShutdownState.initial).pc ≠ .returned ∧
    (noShutdownSignal sigs →
      (handleShutdown sigs ShutdownState.initial).received = false ∧
      (handleShutdown sigs ShutdownState.initial).events = []) ∧
    ((handleShutdown sigs ShutdownState.initial).received = false →
      (handleShutdown sigs ShutdownState.initial).events = []) ∧
    ((handleShutdown sigs ShutdownState.initial).received = true →
      (handleShutdown sigs ShutdownState.initial).events <+: shutdownSequence ∧
      ∀ more : List (Option Signal), 3 ≤ more.length →
        (handleShutdown (sigs ++ more) ShutdownState.initial).pc = .exited ∧
        (handleShutdown (sigs ++ more) ShutdownState.initial).events = shutdownSequence) ∧
    (∀ (s : Signal) (more : List (Option Signal)), 2 ≤ sigs.length →
      s = .SIGINT ∨ s = .SIGTERM → 3 ≤ more.length →
      (handleShutdown (sigs ++ [some s] ++ more) ShutdownState.initial).pc = .exited ∧
      (handleShutdown (sigs ++ [some s] ++ more) ShutdownState.initial).events
        = shutdownSequence) := by
  have hinv := handleShutdown_inv sigs _ initial_inv
  refine ⟨?_, ?_, ?_, ?_, ?_⟩
  · intro hp; simp [ShutdownState.Inv, hp] at hinv
  · intro hno
    have hq := handleShutdown_quiet sigs _ initial_quiet hno
    exact ⟨hq.1, hq.2.2.1⟩
  · intro hr
    cases hp : (handleShutdown sigs ShutdownState.initial).pc <;>
      simp_all [ShutdownState.received, ShutdownState.Inv]
  · intro hr
    constructor
    · cases hp : (handleShutdown sigs ShutdownState.initial).pc <;>
        simp_all [ShutdownState.received, ShutdownState.Inv, shutdownSequence,
          List.prefix_iff_eq_take]
    · intro more hmore
      have h3 : 3 ≤ (handleShutdown sigs ShutdownState.initial).pc.rank := by
        cases hp : (handleShutdown sigs ShutdownState.initial).pc <;>
          simp_all [ShutdownState.received, ShutdownPC.rank]
      have hrk := handleShutdown_rank more _ hinv h3
      rw [handleShutdown_append]
      apply exited_of_rank _ (handleShutdown_inv more _ hinv)
      rw [hrk]
      have : (handleShutdown sigs ShutdownState.initial).pc.rank ≤ 6 := by
        cases hp : (handleShutdown sigs ShutdownState.initial).pc <;>
          simp_all [ShutdownPC.rank, ShutdownState.Inv]
      omega
  · intro s more h2 hs hmore
    have hge := handleShutdown_rank_ge_two sigs h2
    have h3 := tick_receives s _ hinv hge hs
    have hinv1 := tick_inv (some s) _ hinv
    have hrk := handleShutdown_rank more _ hinv1 h3
    rw [List.append_assoc, handleShutdown_append]
    show (handleShutdown more (handleShutdownStep (deliver (some s) _))).pc = _ ∧ _
    apply exited_of_rank _ (handleShutdown_inv more _ hinv1)
    rw [hrk]
    have : (handleShutdownStep (deliver (some s)
        (handleShutdown sigs ShutdownState.initial))).pc.rank ≤ 6 := by
      cases hp : (handleShutdownStep (deliver (some s)
        (handleShutdown sigs ShutdownState.initial))).pc <;>
        simp_all [ShutdownPC.rank, ShutdownState.Inv]
    omega

theorem handleShutdown_sequence_witness :
    (handleShutdown ([none, none, none] ++ [some .SIGTERM] ++ [none, none, some .SIGINT])
      ShutdownState.initial).pc = .exited ∧
    (handleShutdown ([none, none, none] ++ [some .SIGTERM] ++ [none, none, some .SIGINT])
      ShutdownState.initial).events
      = [.println "\nShutting down gracefully...\n", .cancelFunc, .osExit 0] ∧
    noShutdownSignal [none, none, some (.other 1), none, none, some (.other 1), none] ∧
    (handleShutdown [none, none, some (.other 1), none, none, some (.other 1), none]
      ShutdownState.initial).events = [] ∧
    (handleShutdown [none, none, none] ShutdownState.initial).events = [] :=
  have hno : noShutdownSignal
      [none, none, some (.other 1), none, none, some (.other 1), none] := by
    intro s hs
    simp only [List.mem_cons, Option.some.injEq, List.mem_singleton, List.not_mem_nil,
      or_false, false_or, reduceCtorEq] at hs
    rcases hs with h | h <;> (subst h; rfl)
  ⟨((handleShutdown_sequence [none, none, none]).2.2.2.2 .SIGTERM [none, none, some .SIGINT]
      (by decide) (Or.inr rfl) (by decide)).1,
   ((handleShutdown_sequence [none, none, none]).2.2.2.2 .SIGTERM [none, none, some .SIGINT]
      (by decide) (Or.inr rfl) (by decide)).2,
   hno,
   ((handleShutdown_sequence
      [none, none, some (.other 1), none, none, some (.other 1), none]).2.1 hno).2,
   (handleShutdown_sequence [none, none, none]).2.2.1 (by decide)⟩

end Bepass
